import Mathlib

/-!
Verification development for the drizzow unit-of-work library.

This file gives a shallow embedding, in Lean, of the core in-memory machinery of
the library: JavaScript values, the identity map (`src/identity-map.ts`), the
change tracker (`src/change-tracker.ts`), the proxy write interception
(`src/proxy.ts`), the checkpoint manager (`src/checkpoint-manager.ts`) and the
unit-of-work coordinator (`src/uow.ts`).

Modelling conventions:
* JavaScript objects live in a heap indexed by `Nat` entity identifiers, so that
  reference (pointer) equality and aliasing are observable.  A caller-visible
  entity (a proxy) is one heap reference.
* `Map` objects are association lists in insertion order, mirroring JavaScript
  `Map` semantics (`set` on an existing key keeps its position, `delete` removes
  the entry).
* Fallible code returns `Except String` (a thrown `Error` is the `.error` case,
  carrying the message).
* The database and the storage adapter are external collaborators: queries are a
  function parameter `db`, and `executeChangeSets` is a function parameter
  `exec` whose success or failure drives `save`.
-/

/-- A JavaScript runtime value, as the library manipulates them: primitives,
`Date`s (identified by their epoch milliseconds, which is all the code reads),
arrays, and plain objects given as field lists in property-insertion order. -/
inductive JsValue where
  | vNull
  | vUndefined
  | vBool (b : Bool)
  | vNum (n : Int)
  | vStr (s : String)
  | vDate (ms : Int)
  | vArr (items : List JsValue)
  | vObj (fields : List (String × JsValue))
deriving Repr

/-- An object's own enumerable properties, in insertion order. -/
abbrev Obj := List (String × JsValue)

/-- Result of the JavaScript `typeof` operator on an embedded value.  Note that
`typeof null`, dates, arrays and plain objects are all `"object"`. -/
def typeofStr : JsValue → String
  | .vUndefined => "undefined"
  | .vBool _ => "boolean"
  | .vNum _ => "number"
  | .vStr _ => "string"
  | _ => "object"

/-- Whether a value is `null` or `undefined` (the JavaScript `a == null` test). -/
def isNullish : JsValue → Bool
  | .vNull => true
  | .vUndefined => true
  | _ => false

/-- JavaScript strict equality `===` on embedded values.  Primitives compare by
value.  Two object references materialised separately are distinct, so for
dates, arrays and objects this returns `false`: every use of `===`/`!==` on
values in the embedded code compares references that are never aliased (one
side is always a freshly produced deep clone), and `deepEqual` recovers the
same-reference case structurally in its recursive branches. -/
def strictEqJs : JsValue → JsValue → Bool
  | .vNull, .vNull => true
  | .vUndefined, .vUndefined => true
  | .vBool x, .vBool y => x == y
  | .vNum x, .vNum y => x == y
  | .vStr x, .vStr y => x == y
  | _, _ => false

/-- Looks a key up in an association list (`Map.get`, first matching entry). -/
def alGet {κ α : Type} [DecidableEq κ] : List (κ × α) → κ → Option α
  | [], _ => none
  | kv :: rest, k => if kv.1 = k then some kv.2 else alGet rest k

/-- Whether a key is present (`Map.has`). -/
def alHas {κ α : Type} [DecidableEq κ] (l : List (κ × α)) (k : κ) : Bool :=
  (alGet l k).isSome

/-- Inserts or updates a binding (`Map.set`): an existing key keeps its
insertion position, a new key is appended. -/
def alSet {κ α : Type} [DecidableEq κ] : List (κ × α) → κ → α → List (κ × α)
  | [], k, v => [(k, v)]
  | kv :: rest, k, v => if kv.1 = k then (k, v) :: rest else kv :: alSet rest k v

/-- Removes a binding (`Map.delete`). -/
def alDel {κ α : Type} [DecidableEq κ] : List (κ × α) → κ → List (κ × α)
  | [], _ => []
  | kv :: rest, k => if kv.1 = k then rest else kv :: alDel rest k

/-- Reads a property of an object: `o[p]`, which is `undefined` when absent. -/
def objGetD (o : Obj) (p : String) : JsValue :=
  (alGet o p).getD .vUndefined

/-- Enumerable property keys of an array: its stringified indices. -/
def arrKeys (ys : List JsValue) : List String :=
  ys.enum.map (fun p => toString p.1)

mutual

/-- Deep equality, translated from the private `deepEqual` of
`src/change-tracker.ts` (the identical copies in `src/proxy.ts` and
`src/checkpoint-manager.ts` are the same function).  The source tests, in
order: `a === b`; `a == null || b == null`; `typeof a !== typeof b`; both
`Date`; both arrays; both `typeof "object"` compared by key sets and recursive
values.  The translation fuses the reference-equality shortcut into the
structural branches (see `strictEqJs`); the mixed date/array/object clauses
spell out the generic key-set branch for those pairings (a `Date` has no own
enumerable keys, an array's keys are its indices). -/
def deepEqual : JsValue → JsValue → Bool
  | .vNull, .vNull => true
  | .vUndefined, .vUndefined => true
  | .vBool x, .vBool y => x == y
  | .vNum x, .vNum y => x == y
  | .vStr x, .vStr y => x == y
  | .vDate x, .vDate y => x == y
  | .vArr xs, .vArr ys => deepEqualList xs ys
  | .vObj fs, .vObj gs => fs.length == gs.length && deepEqualFields fs gs
  | .vObj fs, .vDate _ => fs.isEmpty
  | .vDate _, .vObj gs => gs.isEmpty
  | .vArr xs, .vDate _ => xs.isEmpty
  | .vDate _, .vArr ys => ys.isEmpty
  | .vObj fs, .vArr ys => fs.length == ys.length &&
      deepEqualFields fs (ys.enum.map (fun p => (toString p.1, p.2)))
  | .vArr xs, .vObj gs => xs.length == gs.length &&
      ((arrKeys xs).all (fun k => (gs.map Prod.fst).contains k)) &&
      deepEqualList xs ((arrKeys xs).map (objGetD gs))
  | _, _ => false

/-- Index-wise array comparison after the length check (the source's `for` loop
over indices; the length check is folded into the clause structure). -/
def deepEqualList : List JsValue → List JsValue → Bool
  | [], [] => true
  | x :: xs, y :: ys => deepEqual x y && deepEqualList xs ys
  | _, _ => false

/-- Key-set and value comparison of the generic `typeof "object"` branch: every
key of the first operand's property list must appear among the second's keys
with a deeply equal value.  The mixed object/array pairings above feed the
array side as its index-keyed property list. -/
def deepEqualFields : List (String × JsValue) → List (String × JsValue) → Bool
  | [], _ => true
  | (k, v) :: rest, gs =>
      (gs.map Prod.fst).contains k &&
      deepEqual v (objGetD gs k) &&
      deepEqualFields rest gs

end

/-- Deep clone, from the private `deepClone` of `src/change-tracker.ts` and
`src/identity-map.ts`: primitives are returned as-is, dates, arrays and plain
objects are copied recursively.  Its whole purpose is to break reference
sharing; at the level of pure values it is the identity, and aliasing is
modelled separately through the heap (a snapshot stores `Obj` values, not
references), so the clone of a value is the value itself. -/
def deepClone (v : JsValue) : JsValue := v

/-- Clones every property value of an object (`captureOriginalValues` and the
object case of `deepClone` iterate the own enumerable entries). -/
def deepCloneObj (o : Obj) : Obj :=
  o.map (fun kv => (kv.1, deepClone kv.2))

mutual

/-- JavaScript `String(v)` coercion for the values the code stringifies.  A
plain object gives `"[object Object]"` — this is what makes
`identityMap.remove(table, entity)` in `UnitOfWork.deleteEntity` miss, since it
passes the entity object where a primary key is expected.  The exact rendering
of a `Date` is locale-dependent in JavaScript and never influences control flow
here; a deterministic placeholder is used. -/
def jsToString : JsValue → String
  | .vNull => "null"
  | .vUndefined => "undefined"
  | .vBool b => if b then "true" else "false"
  | .vNum n => toString n
  | .vStr s => s
  | .vDate ms => "Date(" ++ toString ms ++ ")"
  | .vArr xs => jsToStringList xs
  | .vObj _ => "[object Object]"

/-- Comma-joined element rendering (`Array.prototype.toString`). -/
def jsToStringList : List JsValue → String
  | [] => ""
  | [x] => jsToString x
  | x :: rest => jsToString x ++ "," ++ jsToStringList rest

end

mutual

/-- JSON serialisation as `JSON.stringify` produces it for the values used as
composite primary keys (arrays of scalars).  String escaping and the `Date`
rendering are simplified deterministically; no claim exercises them. -/
def jsonStringify : JsValue → String
  | .vNull => "null"
  | .vUndefined => "null"
  | .vBool b => if b then "true" else "false"
  | .vNum n => toString n
  | .vStr s => "\"" ++ s ++ "\""
  | .vDate ms => "\"Date(" ++ toString ms ++ ")\""
  | .vArr xs => "[" ++ jsonStringifyList xs ++ "]"
  | .vObj fs => "\x7b" ++ jsonStringifyFields fs ++ "\x7d"

/-- Comma-joined JSON array elements. -/
def jsonStringifyList : List JsValue → String
  | [] => ""
  | [x] => jsonStringify x
  | x :: rest => jsonStringify x ++ "," ++ jsonStringifyList rest

/-- Comma-joined JSON object members. -/
def jsonStringifyFields : List (String × JsValue) → String
  | [] => ""
  | [(k, v)] => "\"" ++ k ++ "\":" ++ jsonStringify v
  | (k, v) :: rest => "\"" ++ k ++ "\":" ++ jsonStringify v ++ "," ++ jsonStringifyFields rest

end

/-- Serialises a primary key to a string map key
(`IdentityMap.serializeKey`, `src/identity-map.ts`): `null`/`undefined` throw,
a composite (array) key is JSON-encoded, anything else is `String(key)`. -/
def serializeKey : JsValue → Except String String
  | .vNull => .error "Primary key cannot be null or undefined"
  | .vUndefined => .error "Primary key cannot be null or undefined"
  | .vArr xs => .ok (jsonStringify (.vArr xs))
  | k => .ok (jsToString k)

example : deepEqual (.vObj [("a", .vNum 1), ("b", .vArr [.vStr "x"])])
    (.vObj [("b", .vArr [.vStr "x"]), ("a", .vNum 1)]) = true := by decide

example : serializeKey (.vObj [("id", .vNum 1)]) = .ok "[object Object]" := by rfl

example : serializeKey (.vArr [.vNum 1, .vStr "a"]) = .ok "[1,\"a\"]" := by rfl

/-- Entity states for change tracking (`EntityState` in `src/types.ts`). -/
inductive EntityState where
  | unchanged
  | modified
  | added
  | deleted
deriving DecidableEq, Repr

/-- A tracking record (`TrackedEntity` in `src/types.ts`): the live entity is
the association key in the tracker map, so the record carries its state, the
baseline `originalValues`, the table name and the primary key. -/
structure Tracked where
  state : EntityState
  originalValues : Obj
  tableName : String
  primaryKey : JsValue
deriving Repr

/-- The change tracker's `trackedEntities` map, keyed by entity reference. -/
abbrev TrackerMap := List (Nat × Tracked)

/-- A snapshotted tracking record (`ChangeTracker.createSnapshot` clones the
entity object into the record's `entity` field, so the snapshot stores the
entity's field values, not a live reference; the original reference remains the
map key). -/
structure SnapTracked where
  entityVal : Obj
  state : EntityState
  originalValues : Obj
  tableName : String
  primaryKey : JsValue
deriving Repr

/-- The identity map's two-level storage: table name → serialized key → entity
reference (`IdentityMap.entities`, `src/identity-map.ts`). -/
abbrev IdentMap := List (String × List (String × Nat))

/-- A checkpoint (`Checkpoint` in `src/types.ts`): its id, the change-tracker
snapshot, and the identity-map snapshot (the latter stores deep-cloned entity
values per serialized key).  The informational `timestamp` field, read from the
ambient clock and never used in control flow, is not modelled. -/
structure Checkpoint where
  id : Nat
  entityStates : List (Nat × SnapTracked)
  identitySnapshot : List (String × List (String × Obj))
deriving Repr

/-- The checkpoint manager's state (`src/checkpoint-manager.ts`). -/
structure CpState where
  checkpoints : List Checkpoint
  currentCheckpointId : Nat
  lastPersistedCheckpointId : Option Nat
  lastRevertedCheckpointId : Option Nat
deriving Repr

/-- The in-memory state of one `UnitOfWork` session: the heap of live entity
objects (with a fresh-id counter), the identity map, the change tracker and the
checkpoint manager.  The query cache (`queryCache`) is declared and cleared by
the source but never consulted by `find`, so it is not modelled. -/
structure UowState where
  heap : List (Nat × Obj)
  nextId : Nat
  identMap : IdentMap
  tracker : TrackerMap
  cp : CpState
deriving Repr

/-- The state of a freshly constructed `UnitOfWork`. -/
def UowState.initial : UowState :=
  ⟨[], 0, [], [], ⟨[], 0, none, none⟩⟩

/-- Reads the object a heap reference denotes (dangling references never arise
through the modelled operations; they default to the empty object). -/
def heapGetD (heap : List (Nat × Obj)) (eid : Nat) : Obj :=
  (alGet heap eid).getD []

/-- The schema as the adapters consume it: table name → primary-key column
name.  `BaseDatabaseAdapter.extractPrimaryKeyValue` reads that column off an
entity and `getPrimaryKeyColumn` resolves it for queries. -/
abbrev Schema := List (String × String)

/-- Reads the primary-key value off an entity object
(`extractPrimaryKeyValue(table, entity)` — the adapters look the table's
primary-key column up in the table config and index the entity with it). -/
def extractPk (pkField : String) (row : Obj) : JsValue :=
  objGetD row pkField

/-- Looks an entity up (`IdentityMap.get`): `undefined` when the table was
never seen, otherwise the serialized-key lookup (the serialization can throw
for a `null`/`undefined` key). -/
def imGet (im : IdentMap) (tableName : String) (primaryKey : JsValue) :
    Except String (Option Nat) :=
  match alGet im tableName with
  | none => .ok none
  | some tableMap =>
      match serializeKey primaryKey with
      | .error e => .error e
      | .ok key => .ok (alGet tableMap key)

/-- The accumulation loop of `IdentityMap.getMany`: walks the requested keys in
order, appending hits to `founds` and misses to `missings`. -/
def imGetManyLoop (tableMap : List (String × Nat)) :
    List JsValue → List Nat → List JsValue → Except String (List Nat × List JsValue)
  | [], founds, missings => .ok (founds, missings)
  | primaryKey :: rest, founds, missings =>
      match serializeKey primaryKey with
      | .error e => .error e
      | .ok key =>
          match alGet tableMap key with
          | some found => imGetManyLoop tableMap rest (founds ++ [found]) missings
          | none => imGetManyLoop tableMap rest founds (missings ++ [primaryKey])

/-- Batch lookup (`IdentityMap.getMany`): `undefined` when the table was never
seen, otherwise the hits in order followed by the missed primary keys. -/
def imGetMany (im : IdentMap) (tableName : String) (primaryKeys : List JsValue) :
    Except String (Option (List Nat × List JsValue)) :=
  match alGet im tableName with
  | none => .ok none
  | some tableMap =>
      match imGetManyLoop tableMap primaryKeys [] [] with
      | .error e => .error e
      | .ok fm => .ok (some fm)

/-- Registers an entity (`IdentityMap.register`).  The source creates the empty
per-table map before serializing the key; the residual empty table map left
behind when serialization throws is unobservable in the modelled flows (every
caller serializes a key that was already serialized or null-checked). -/
def imRegister (im : IdentMap) (tableName : String) (primaryKey : JsValue)
    (eid : Nat) : Except String IdentMap :=
  let tableMap := (alGet im tableName).getD []
  match serializeKey primaryKey with
  | .error e => .error e
  | .ok key => .ok (alSet im tableName (alSet tableMap key eid))

/-- Removes an entry (`IdentityMap.remove`).  The second argument is whatever
the caller passed as the primary key — `UnitOfWork.deleteEntity` passes the
entity object itself, which serializes to `"[object Object]"`. -/
def imRemove (im : IdentMap) (tableName : String) (primaryKey : JsValue) :
    Except String IdentMap :=
  match alGet im tableName with
  | none => .ok im
  | some tableMap =>
      match serializeKey primaryKey with
      | .error e => .error e
      | .ok key => .ok (alSet im tableName (alDel tableMap key))

/-- Snapshot of the identity map (`IdentityMap.createSnapshot`): each live
entity reference is dereferenced and deep-cloned into the snapshot. -/
def imCreateSnapshot (heap : List (Nat × Obj)) (im : IdentMap) :
    List (String × List (String × Obj)) :=
  im.map (fun t => (t.1, t.2.map (fun kv => (kv.1, deepCloneObj (heapGetD heap kv.2)))))

/-- Rebuilds the identity map from a snapshot
(`IdentityMap.restoreFromSnapshot`): the map is cleared and every snapshotted
entity value is deep-cloned into a fresh object — in the heap model, a freshly
allocated reference per entry.  The restored map therefore holds new
references, not the pre-rollback proxies (only the change tracker restores
in place on the original references). -/
def imRestoreFromSnapshot (s : UowState)
    (snapshot : List (String × List (String × Obj))) : UowState :=
  let s₀ := { s with identMap := [] }
  snapshot.foldl
    (fun acc t =>
      t.2.foldl
        (fun acc2 kv =>
          let eid := acc2.nextId
          { acc2 with
            heap := acc2.heap ++ [(eid, deepCloneObj kv.2)]
            nextId := eid + 1
            identMap :=
              alSet acc2.identMap t.1 (alSet ((alGet acc2.identMap t.1).getD []) kv.1 eid) })
        acc)
    s₀

/-- Starts tracking an entity (`ChangeTracker.track`): a no-op when already
tracked; otherwise records the state, table name and extracted primary key, and
captures a deep-cloned baseline of every enumerable field when the entity
starts out `Unchanged` or `Modified`. -/
def trackFn (heap : List (Nat × Obj)) (tracker : TrackerMap) (eid : Nat)
    (tableName : String) (pkField : String) (state : EntityState) : TrackerMap :=
  if alHas tracker eid then tracker
  else
    let entity := heapGetD heap eid
    let primaryKey := extractPk pkField entity
    let originalValues :=
      if state = .unchanged ∨ state = .modified then deepCloneObj entity else []
    tracker ++ [(eid, ⟨state, originalValues, tableName, primaryKey⟩)]

/-- Marks an entity modified (`ChangeTracker.markModified`): throws on an
untracked entity; flips `Unchanged` to `Modified`; records the old value as the
field's baseline only on the first divergence.  The declared `newValue`
parameter is unused by the source body (and the proxy trap only passes three
arguments anyway). -/
def markModifiedFn (tracker : TrackerMap) (eid : Nat) (property : String)
    (oldValue : JsValue) (newValue : JsValue) : Except String TrackerMap :=
  match alGet tracker eid with
  | none => .error "Cannot modify untracked entity"
  | some tracked =>
      let tracked :=
        if tracked.state = .unchanged then { tracked with state := .modified } else tracked
      let tracked :=
        if alHas tracked.originalValues property then tracked
        else { tracked with originalValues := alSet tracked.originalValues property oldValue }
      let _ := newValue
      .ok (alSet tracker eid tracked)

/-- Marks an entity deleted (`ChangeTracker.markDeleted`): throws on an
untracked entity; otherwise sets the state regardless of the prior one. -/
def markDeletedFn (tracker : TrackerMap) (eid : Nat) : Except String TrackerMap :=
  match alGet tracker eid with
  | none => .error "Cannot delete untracked entity"
  | some tracked => .ok (alSet tracker eid { tracked with state := .deleted })

/-- Reads an entity's tracked state (`ChangeTracker.getState`). -/
def getStateFn (tracker : TrackerMap) (eid : Nat) : Option EntityState :=
  (alGet tracker eid).map (fun t => t.state)

/-- One field change of a changeset: property name, old value, new value. -/
abbrev FieldChange := String × JsValue × JsValue

/-- A changeset (`ChangeSet` in `src/types.ts`), computed on demand. -/
structure ChangeSet where
  entity : Nat
  state : EntityState
  changes : List FieldChange
  tableName : String
deriving Repr

/-- The per-entity body of `ChangeTracker.computeChangeSets`: an `Unchanged`
entity contributes nothing; a `Modified` entity contributes a deep-equality
diff of each baseline field against the live value, and nothing when no field
actually differs; an `Added` or `Deleted` entity contributes a changeset with
an empty change map unconditionally. -/
def changeSetEntry (heap : List (Nat × Obj)) (et : Nat × Tracked) : Option ChangeSet :=
  let eid := et.1
  let tracked := et.2
  match tracked.state with
  | .unchanged => none
  | .modified =>
      let changes := tracked.originalValues.filterMap
        (fun pv =>
          let currentValue := objGetD (heapGetD heap eid) pv.1
          if deepEqual pv.2 currentValue then none
          else some (pv.1, pv.2, currentValue))
      if changes.isEmpty then none
      else some ⟨eid, .modified, changes, tracked.tableName⟩
  | state => some ⟨eid, state, [], tracked.tableName⟩

/-- Computes changesets for all tracked entities
(`ChangeTracker.computeChangeSets`): the tracked-entity map is walked in
insertion order and each entity contributes its `changeSetEntry`. -/
def computeChangeSets (heap : List (Nat × Obj)) (tracker : TrackerMap) :
    List ChangeSet :=
  tracker.filterMap (changeSetEntry heap)

/-- Snapshot of the tracker (`ChangeTracker.createSnapshot`): the entity object
is deep-cloned into the record, the `originalValues` map is copied shallowly,
and the record stays keyed by the live reference. -/
def createTrackerSnapshot (heap : List (Nat × Obj)) (tracker : TrackerMap) :
    List (Nat × SnapTracked) :=
  tracker.map
    (fun et =>
      (et.1,
        ⟨deepCloneObj (heapGetD heap et.1), et.2.state, et.2.originalValues,
          et.2.tableName, et.2.primaryKey⟩))

/-- Merges the source object's properties over the target in place
(`Object.assign(target, source)`): listed fields are overwritten or appended,
fields absent from the source survive. -/
def objAssign (target source : Obj) : Obj :=
  source.foldl (fun acc kv => alSet acc kv.1 kv.2) target

/-- Restores the tracker from a snapshot (`ChangeTracker.restoreFromSnapshot`):
the map is cleared, then every snapshotted record restores its entity's field
values in place on the same reference via `Object.assign` and re-tracks that
reference with the snapshotted state and baselines. -/
def trackerRestoreFromSnapshot (s : UowState)
    (snapshot : List (Nat × SnapTracked)) : UowState :=
  let s₀ := { s with tracker := [] }
  snapshot.foldl
    (fun acc et =>
      { acc with
        heap := alSet acc.heap et.1 (objAssign (heapGetD acc.heap et.1) et.2.entityVal)
        tracker := acc.tracker ++
          [(et.1, ⟨et.2.state, et.2.originalValues, et.2.tableName, et.2.primaryKey⟩)] })
    s₀

/-- Renders a nullable checkpoint id the way a JavaScript template literal
renders `number | null`. -/
def optNatToString : Option Nat → String
  | none => "null"
  | some n => toString n

/-- Creates a checkpoint (`CheckpointManager.setCheckpoint`): increments the id
counter, snapshots tracker and identity map, appends, and drops the oldest
checkpoint once more than 50 are retained. -/
def setCheckpointOp (s : UowState) : Nat × UowState :=
  let checkpointId := s.cp.currentCheckpointId + 1
  let checkpoint : Checkpoint :=
    ⟨checkpointId, createTrackerSnapshot s.heap s.tracker,
      imCreateSnapshot s.heap s.identMap⟩
  let checkpoints := s.cp.checkpoints ++ [checkpoint]
  let checkpoints := if checkpoints.length > 50 then checkpoints.drop 1 else checkpoints
  (checkpointId,
    { s with cp := { s.cp with checkpoints := checkpoints, currentCheckpointId := checkpointId } })

/-- Whether a checkpoint id is currently retained (`hasCheckpoint`). -/
def hasCheckpointFn (c : CpState) (checkpointId : Nat) : Bool :=
  c.checkpoints.any (fun cp => cp.id = checkpointId)

/-- The retained checkpoint ids (`getAvailableCheckpoints`). -/
def getAvailableCheckpoints (c : CpState) : List Nat :=
  c.checkpoints.map (fun cp => cp.id)

/-- Whether the ordering bound `lastPersistedCheckpointId !== null &&
checkpointId < lastPersistedCheckpointId` is violated. -/
def beforeLastPersisted (c : CpState) (checkpointId : Nat) : Bool :=
  match c.lastPersistedCheckpointId with
  | some lastPersisted => decide (checkpointId < lastPersisted)
  | none => false

/-- Whether the ordering bound `lastRevertedCheckpointId !== null &&
checkpointId > lastRevertedCheckpointId` is violated. -/
def afterLastReverted (c : CpState) (checkpointId : Nat) : Bool :=
  match c.lastRevertedCheckpointId with
  | some lastReverted => decide (checkpointId > lastReverted)
  | none => false

/-- Validation for persisting (`canPersistToCheckpoint`): the checkpoint must
exist, must not lie before the last persisted checkpoint, and must not lie
after the last reverted checkpoint. -/
def canPersistToCheckpoint (c : CpState) (checkpointId : Nat) : Bool :=
  if ¬ hasCheckpointFn c checkpointId then false
  else if beforeLastPersisted c checkpointId then false
  else if afterLastReverted c checkpointId then false
  else true

/-- Validation for reverting (`canRevertToCheckpoint`): the checkpoint must
exist and must not lie before the last persisted checkpoint. -/
def canRevertToCheckpoint (c : CpState) (checkpointId : Nat) : Bool :=
  if ¬ hasCheckpointFn c checkpointId then false
  else if beforeLastPersisted c checkpointId then false
  else true

/-- Persist-validation error message (`getPersistedCheckpointError`). -/
def getPersistedCheckpointError (c : CpState) (checkpointId : Nat) : Option String :=
  if ¬ hasCheckpointFn c checkpointId then
    some ("Checkpoint " ++ toString checkpointId ++ " not found")
  else if ¬ canPersistToCheckpoint c checkpointId then
    if beforeLastPersisted c checkpointId then
      some ("Cannot persist to checkpoint " ++ toString checkpointId ++
        " because it is before the last persisted checkpoint " ++
        optNatToString c.lastPersistedCheckpointId)
    else if afterLastReverted c checkpointId then
      some ("Cannot persist to checkpoint " ++ toString checkpointId ++
        " because it is after the last reverted checkpoint " ++
        optNatToString c.lastRevertedCheckpointId)
    else some ("Cannot persist to checkpoint " ++ toString checkpointId)
  else none

/-- Revert-validation error message (`getRevertCheckpointError`). -/
def getRevertCheckpointError (c : CpState) (checkpointId : Nat) : Option String :=
  if ¬ hasCheckpointFn c checkpointId then
    some ("Checkpoint " ++ toString checkpointId ++ " not found")
  else if ¬ canRevertToCheckpoint c checkpointId then
    some ("Cannot revert to checkpoint " ++ toString checkpointId ++
      " because it is before the last persisted checkpoint " ++
      optNatToString c.lastPersistedCheckpointId)
  else none

/-- Records a successful persist (`markCheckpointAsPersisted`): throws when the
checkpoint is gone, otherwise sets `lastPersistedCheckpointId`. -/
def markCheckpointAsPersistedFn (c : CpState) (checkpointId : Nat) :
    Except String CpState :=
  if ¬ hasCheckpointFn c checkpointId then
    .error ("Checkpoint " ++ toString checkpointId ++ " not found")
  else .ok { c with lastPersistedCheckpointId := some checkpointId }

/-- Reads the tracker snapshot stored at a checkpoint
(`getEntityStatesAtCheckpoint`). -/
def getEntityStatesAtCheckpoint (c : CpState) (checkpointId : Nat) :
    Option (List (Nat × SnapTracked)) :=
  (c.checkpoints.find? (fun cp => cp.id = checkpointId)).map (fun cp => cp.entityStates)

/-- Rolls the session back to a checkpoint (`CheckpointManager.rollback`,
called through `UnitOfWork.rollback`): validates the ordering invariant, looks
the checkpoint up, restores the tracker and then the identity map from its
snapshots, and records `lastRevertedCheckpointId`.  The result is the
`RollbackResult` error field (`none` on success) paired with the state as left
behind. -/
def rollbackCp (s : UowState) (checkpointId : Nat) : Option String × UowState :=
  match getRevertCheckpointError s.cp checkpointId with
  | some validationError => (some validationError, s)
  | none =>
      match s.cp.checkpoints.find? (fun cp => cp.id = checkpointId) with
      | none =>
          (some ("Checkpoint " ++ toString checkpointId ++
            " not found. Available checkpoints: " ++
            String.intercalate ", " ((getAvailableCheckpoints s.cp).map toString)), s)
      | some checkpoint =>
          let s₁ := trackerRestoreFromSnapshot s checkpoint.entityStates
          let s₂ := imRestoreFromSnapshot s₁ checkpoint.identitySnapshot
          (none, { s₂ with cp := { s₂.cp with lastRevertedCheckpointId := some checkpointId } })

/-- Materialises a fresh JavaScript object (a raw query row, or the `{...data}`
copy made by `create`) together with its change-tracking `Proxy` wrapper
(`ProxyManager.createProxy` on a not-yet-proxied object).  The object and its
transparent proxy form one caller-visible reference, modelled as one fresh heap
id. -/
def allocEntity (s : UowState) (obj : Obj) : Nat × UowState :=
  (s.nextId,
    { s with heap := s.heap ++ [(s.nextId, obj)], nextId := s.nextId + 1 })

/-- The proxy `set` trap (`ProxyManager.createProxy`, `src/proxy.ts`): reads
the old value, applies the write via `Reflect.set`, and — only when the
receiver is currently tracked and the old and new values are not deeply equal —
notifies the change tracker through `markModified` (passing the property and
old value; the trap supplies no fourth argument, so `newValue` arrives as
`undefined`).  A `markModified` throw propagates to the writer. -/
def proxySet (s : UowState) (eid : Nat) (property : String) (value : JsValue) :
    Except String UowState :=
  let target := heapGetD s.heap eid
  let oldValue := objGetD target property
  let s₁ := { s with heap := alSet s.heap eid (alSet target property value) }
  if alHas s.tracker eid then
    if ¬ deepEqual oldValue value then
      match markModifiedFn s₁.tracker eid property oldValue .vUndefined with
      | .error e => .error e
      | .ok tracker => .ok { s₁ with tracker := tracker }
    else .ok s₁
  else .ok s₁

/-- Wraps one raw query row (`ProxyManager.wrapSingleResult`): when an entity
with the same (table, primary key) already lives in the identity map, that
existing instance is returned and the fresh row is discarded; otherwise the row
is proxied, registered in the identity map, and tracked as `Unchanged`.  (A
fetched row is always a non-null plain object, so the `isProxyable` guard
passes.) -/
def wrapSingleResult (s : UowState) (tableName : String) (pkField : String)
    (row : Obj) : Except String (Nat × UowState) :=
  let primaryKey := extractPk pkField row
  match imGet s.identMap tableName primaryKey with
  | .error e => .error e
  | .ok (some existing) => .ok (existing, s)
  | .ok none =>
      let (proxy, s₁) := allocEntity s row
      match imRegister s₁.identMap tableName primaryKey proxy with
      | .error e => .error e
      | .ok identMap =>
          let tracker := trackFn s₁.heap s₁.tracker proxy tableName pkField .unchanged
          .ok (proxy, { s₁ with identMap := identMap, tracker := tracker })

/-- Wraps a list of raw query rows (`ProxyManager.wrapQueryResults`, array
branch), threading identity-map and tracker registrations left to right. -/
def wrapQueryResults : UowState → String → String → List Obj →
    Except String (List Nat × UowState)
  | s, _, _, [] => .ok ([], s)
  | s, tableName, pkField, row :: rest =>
      match wrapSingleResult s tableName pkField row with
      | .error e => .error e
      | .ok (e, s₁) =>
          match wrapQueryResults s₁ tableName pkField rest with
          | .error e2 => .error e2
          | .ok (es, s₂) => .ok (e :: es, s₂)

/-- The result of the per-table `find`: a single optional entity for a scalar
key, a list for an array key. -/
inductive FindResult where
  | one (entity : Option Nat)
  | many (entities : List Nat)
deriving DecidableEq, Repr

/-- The `Deleted` filter at the end of `UnitOfWork.find`: entities whose
tracked state is `Deleted` are dropped.  (`getState(entity)!` is `undefined`
for an untracked entry, which the comparison keeps.) -/
def findFilterLive (tracker : TrackerMap) (results : List Nat) : List Nat :=
  results.filter
    (fun e =>
      match getStateFn tracker e with
      | some .deleted => false
      | _ => true)

/-- The fetch-and-wrap phase of `UnitOfWork.find`: when keys remain to query,
resolves the primary-key column (throwing when the schema has none for the
table), delegates to the query engine (`findMany` with an `inArray` condition,
modelled by `db` returning each key's row), and wraps whatever rows came
back. -/
def findFetch (schema : Schema) (db : String → JsValue → Option Obj)
    (s : UowState) (table : String) (results : List Nat)
    (pksToQuery : List JsValue) : Except String (List Nat × UowState) :=
  if pksToQuery.length > 0 then
    match alGet schema table with
    | none => .error ("No primary key found for table " ++ table)
    | some pkField =>
        let fetched := pksToQuery.filterMap (db table)
        if fetched.length > 0 then
          match wrapQueryResults s table pkField fetched with
          | .error e => .error e
          | .ok (wrapped, s₁) => .ok (results ++ wrapped, s₁)
        else .ok (results, s)
  else .ok (results, s)

/-- The per-table `find` (`UnitOfWork.find`, `src/uow.ts`): exactly one key
field; a `null`/`undefined` key throws; an array key takes the batch path
(identity-map hits first, one query for the misses), a scalar key the single
path; fetched rows are wrapped and registered; `Deleted` entities are filtered
from the results; the scalar form returns the first result or `undefined`. -/
def findOp (schema : Schema) (db : String → JsValue → Option Obj) (s : UowState)
    (table : String) (param : Obj) : Except String (FindResult × UowState) :=
  let paramValues := param.map Prod.snd
  if paramValues.length > 1 then
    .error "More than 1 primary key supplied"
  else
    let pkValue := paramValues.headD .vUndefined
    if isNullish pkValue then
      .error "Primary key cannot be null or undefined"
    else
      match pkValue with
      | .vArr pkList =>
          (match imGetMany s.identMap table pkList with
           | .error e => .error e
           | .ok cache =>
               let rq :=
                 match cache with
                 | none => (([] : List Nat), pkList)
                 | some fm => (fm.1, fm.2)
               match findFetch schema db s table rq.1 rq.2 with
               | .error e => .error e
               | .ok (results, s₁) => .ok (.many (findFilterLive s₁.tracker results), s₁))
      | pkValue =>
          (match imGet s.identMap table pkValue with
           | .error e => .error e
           | .ok cache =>
               let rq :=
                 match cache with
                 | none => (([] : List Nat), [pkValue])
                 | some cached => ([cached], ([] : List JsValue))
               match findFetch schema db s table rq.1 rq.2 with
               | .error e => .error e
               | .ok (results, s₁) => .ok (.one (findFilterLive s₁.tracker results).head?, s₁))

/-- The per-table `create` (`UnitOfWork.create`, `src/uow.ts`): resolves the
table, shallow-copies the caller's data, requires a primary key, rejects a
live (non-`Deleted`) duplicate identity, then proxies the new entity, marks it
`Added` (`createNewEntityProxy`) and registers it in the identity map.  Returns
the new proxy reference. -/
def createOp (schema : Schema) (s : UowState) (table : String) (data : Obj) :
    Except String (Nat × UowState) :=
  match alGet schema table with
  | none => .error ("Table '" ++ table ++ "' not found in schema")
  | some pkField =>
      let primaryKey := extractPk pkField data
      if isNullish primaryKey then
        .error ("Cannot create entity in table '" ++ table ++
          "' without providing a primary key. " ++
          "Please provide all primary key fields when creating new entities.")
      else
        match imGet s.identMap table primaryKey with
        | .error e => .error e
        | .ok existing =>
            let dup : Except String Unit :=
              match existing with
              | some existingEntity =>
                  (match getStateFn s.tracker existingEntity with
                   | some .deleted => Except.ok ()
                   | _ => .error ("Entity with primary key " ++ jsToString primaryKey ++
                       " already exists"))
              | none => Except.ok ()
            match dup with
            | .error e => .error e
            | .ok _ =>
                let (proxy, s₁) := allocEntity s data
                let tracker := trackFn s₁.heap s₁.tracker proxy table pkField .added
                match imRegister s₁.identMap table primaryKey proxy with
                | .error e => .error e
                | .ok identMap =>
                    .ok (proxy, { s₁ with tracker := tracker, identMap := identMap })

/-- The per-table `delete` (`UnitOfWork.deleteEntity`, `src/uow.ts`): resolves
the table, rejects an untracked entity, marks the entity `Deleted`, and calls
`identityMap.remove(table, entity)` — passing the entity object itself where a
primary key is expected, so the removal serializes it to `"[object Object]"`
and the entity's real (table, primary key) entry stays in the identity map. -/
def deleteOp (schema : Schema) (s : UowState) (table : String) (eid : Nat) :
    Except String UowState :=
  match alGet schema table with
  | none => .error ("Table '" ++ table ++ "' not found in schema")
  | some _ =>
      if ¬ alHas s.tracker eid then
        .error ("Cannot delete untracked entity. " ++
          "Entity must be loaded through UnitOfWork or created with create().")
      else
        match markDeletedFn s.tracker eid with
        | .error e => .error e
        | .ok tracker =>
            match imRemove s.identMap table (.vObj (heapGetD s.heap eid)) with
            | .error e => .error e
            | .ok identMap => .ok { s with tracker := tracker, identMap := identMap }

/-- The checkpointed changeset computation inside `UnitOfWork.save`
(`src/uow.ts`, the `for (const [entity, checkpointTracked] of checkpointState)`
loop): entities no longer tracked are skipped; an entity `Modified` at the
checkpoint is diffed field by field against the checkpoint's own baseline
(`!==` on a live baseline value versus a snapshot-cloned field value, which
`strictEqJs` models since the two sides never alias); entities `Added` or
`Deleted` at the checkpoint are included unconditionally with an empty change
map; entities absent from the snapshot are never considered.
`checkpointChangeSetEntry` is the loop body, `computeCheckpointChangeSets`
walks the snapshot in insertion order. -/
def checkpointChangeSetEntry (tracker : TrackerMap) (et : Nat × SnapTracked) :
    Option ChangeSet :=
  let entity := et.1
  let checkpointTracked := et.2
  match alGet tracker entity with
  | none => none
  | some _ =>
      match checkpointTracked.state with
      | .modified =>
          let changes := checkpointTracked.originalValues.filterMap
            (fun pv =>
              let checkpointValue := objGetD checkpointTracked.entityVal pv.1
              if strictEqJs pv.2 checkpointValue then none
              else some (pv.1, pv.2, checkpointValue))
          if changes.isEmpty then none
          else some ⟨entity, .modified, changes, checkpointTracked.tableName⟩
      | .added => some ⟨entity, .added, [], checkpointTracked.tableName⟩
      | .deleted => some ⟨entity, .deleted, [], checkpointTracked.tableName⟩
      | .unchanged => none

def computeCheckpointChangeSets (tracker : TrackerMap)
    (checkpointState : List (Nat × SnapTracked)) : List ChangeSet :=
  checkpointState.filterMap (checkpointChangeSetEntry tracker)

/-- Modelled from the spec: `ChangeTracker.markOriginalValuesAsPersisted` is
called by the checkpointed branch of `UnitOfWork.save` but its implementation
is absent from the sources here (the shipped `src/change-tracker.ts` predates
the tracker the coordinator links against — it also lacks `getTrackedEntity`,
which is modelled as the evident map lookup).  Per the spec's description of
save reconciliation ("reconciles each saved entity's current baseline to the
checkpoint's values"), it records the given map as the entity's persisted
baseline, with no further effect on tracked state. -/
def markOriginalValuesAsPersisted (tracker : TrackerMap) (eid : Nat)
    (originalValues : Obj) : TrackerMap :=
  match alGet tracker eid with
  | none => tracker
  | some tracked => alSet tracker eid { tracked with originalValues := originalValues }

/-- The post-persist reconciliation loop of a checkpointed save (`src/uow.ts`,
the `for (const changeSet of changeSets)` loop after `executeChangeSets`): for
each saved entity still tracked and present in the checkpoint snapshot, the
baseline is overwritten with the checkpoint's captured field values
(`Object.entries(checkpointTracked.entity)` written into
`tracked.originalValues`), the persisted baseline is recorded, and the state is
recomputed — `Modified` exactly when some (new) baseline field differs (`!==`)
from the live value, `Unchanged` otherwise. -/
def reconcileCheckpointSave (heap : List (Nat × Obj)) (tracker : TrackerMap)
    (checkpointState : List (Nat × SnapTracked)) (changeSets : List ChangeSet) :
    TrackerMap :=
  changeSets.foldl
    (fun tr cs =>
      match alGet tr cs.entity, alGet checkpointState cs.entity with
      | some tracked, some checkpointTracked =>
          let originalValues :=
            checkpointTracked.entityVal.foldl (fun m kv => alSet m kv.1 kv.2)
              tracked.originalValues
          let hasChanges :=
            originalValues.any
              (fun pv => !(strictEqJs (objGetD (heapGetD heap cs.entity) pv.1) pv.2))
          let state := if hasChanges then EntityState.modified else EntityState.unchanged
          markOriginalValuesAsPersisted
            (alSet tr cs.entity
              { tracked with originalValues := originalValues, state := state })
            cs.entity originalValues
      | _, _ => tr)
    tracker

/-- The session-wide `save` (`UnitOfWork.save`, `src/uow.ts`).  Validation and
changeset computation happen before the `try` block, so their errors are
thrown unwrapped and nothing has mutated yet.  `executeChangeSets` runs first
inside the `try`: when the adapter rejects, the error is re-thrown wrapped in
`"Failed to save changes: "` and no in-memory state has been touched.  On
success, a checkpointed save marks the checkpoint persisted and reconciles the
saved entities' baselines; a full save clears the tracker, the identity map,
the proxy cache and all checkpoints.  The result pairs the thrown message
(`none` when the call returned normally) with the state left behind. -/
def saveOp (exec : List ChangeSet → Except String Unit) (s : UowState)
    (checkpoint : Option Nat) : Option String × UowState :=
  let computed : Except String (List ChangeSet × Option (List (Nat × SnapTracked))) :=
    match checkpoint with
    | some checkpointId =>
        (match getPersistedCheckpointError s.cp checkpointId with
         | some validationError => Except.error validationError
         | none =>
             match getEntityStatesAtCheckpoint s.cp checkpointId with
             | none => .error ("Checkpoint " ++ toString checkpointId ++ " not found")
             | some checkpointState =>
                 .ok (computeCheckpointChangeSets s.tracker checkpointState,
                   some checkpointState))
    | none => .ok (computeChangeSets s.heap s.tracker, none)
  match computed with
  | .error msg => (some msg, s)
  | .ok (changeSets, checkpointState) =>
      if changeSets.isEmpty then (none, s)
      else
        match exec changeSets with
        | .error msg => (some ("Failed to save changes: " ++ msg), s)
        | .ok _ =>
            match checkpoint with
            | some checkpointId =>
                (match markCheckpointAsPersistedFn s.cp checkpointId with
                 | .error msg => (some ("Failed to save changes: " ++ msg), s)
                 | .ok cp₁ =>
                     let tracker₁ := reconcileCheckpointSave s.heap s.tracker
                       (checkpointState.getD []) changeSets
                     (none, { s with cp := cp₁, tracker := tracker₁ }))
            | none =>
                (none,
                  { s with
                      tracker := []
                      identMap := []
                      cp := ⟨[], 0, none, none⟩ })

section AssocLemmas

variable {κ α : Type} [DecidableEq κ]

theorem alGet_alSet_self (l : List (κ × α)) (k : κ) (v : α) :
    alGet (alSet l k v) k = some v := by
  induction l with
  | nil => simp [alSet, alGet]
  | cons kv rest ih =>
      by_cases h : kv.1 = k
      · simp [alSet, alGet, h]
      · simp [alSet, alGet, h, ih]

theorem alGet_alSet_ne (l : List (κ × α)) (k k' : κ) (v : α) (h : k' ≠ k) :
    alGet (alSet l k v) k' = alGet l k' := by
  induction l with
  | nil => simp [alSet, alGet, Ne.symm h]
  | cons kv rest ih =>
      by_cases hk : kv.1 = k
      · subst hk
        have hne : kv.1 ≠ k' := Ne.symm h
        simp [alSet, alGet, hne]
      · by_cases hk' : kv.1 = k'
        · simp [alSet, alGet, hk, hk', h]
        · simp [alSet, alGet, hk, hk', ih]

theorem alGet_append_left (l l₂ : List (κ × α)) (k : κ) (v : α)
    (h : alGet l k = some v) : alGet (l ++ l₂) k = some v := by
  induction l with
  | nil => simp [alGet] at h
  | cons kv rest ih =>
      by_cases hk : kv.1 = k
      · simp [alGet, hk] at h ⊢
        exact h
      · simp [alGet, hk] at h ⊢
        exact ih h

theorem alGet_append_right (l l₂ : List (κ × α)) (k : κ)
    (h : alGet l k = none) : alGet (l ++ l₂) k = alGet l₂ k := by
  induction l with
  | nil => simp [alGet]
  | cons kv rest ih =>
      by_cases hk : kv.1 = k
      · simp [alGet, hk] at h
      · simp [alGet, hk] at h ⊢
        exact ih h

theorem alGet_eq_none_of_not_mem_keys (l : List (κ × α)) (k : κ)
    (h : k ∉ l.map Prod.fst) : alGet l k = none := by
  induction l with
  | nil => simp [alGet]
  | cons kv rest ih =>
      simp at h
      have hk : kv.1 ≠ k := fun hh => h.1 hh.symm
      simp [alGet, hk]
      exact ih (by simpa using h.2)

theorem alGet_mem_keys (l : List (κ × α)) (k : κ) (v : α)
    (h : alGet l k = some v) : k ∈ l.map Prod.fst := by
  induction l with
  | nil => simp [alGet] at h
  | cons kv rest ih =>
      by_cases hk : kv.1 = k
      · simp [hk]
      · simp [alGet, hk] at h
        simp [ih h]

theorem alSet_map_fst_of_mem (l : List (κ × α)) (k : κ) (v : α)
    (h : k ∈ l.map Prod.fst) : (alSet l k v).map Prod.fst = l.map Prod.fst := by
  induction l with
  | nil => simp at h
  | cons kv rest ih =>
      by_cases hk : kv.1 = k
      · simp [alSet, hk]
      · simp [hk] at h
        rcases h with h | h
        · exact absurd h.symm hk
        · simp [alSet, hk, ih (by simpa using h)]

theorem foldl_alSet_alGet (src : List (κ × α)) (base : List (κ × α)) (p : κ)
    (hnd : (src.map Prod.fst).Nodup) :
    alGet (src.foldl (fun m kv => alSet m kv.1 kv.2) base) p =
      match alGet src p with
      | some v => some v
      | none => alGet base p := by
  induction src generalizing base with
  | nil => simp [alGet]
  | cons kv rest ih =>
      simp at hnd
      by_cases hk : kv.1 = p
      · subst hk
        have hnot : alGet rest kv.1 = none :=
          alGet_eq_none_of_not_mem_keys _ _ (by simpa using hnd.1)
        simp [alGet, List.foldl, ih _ hnd.2, hnot, alGet_alSet_self]
      · simp [alGet, hk, List.foldl, ih _ hnd.2, alGet_alSet_ne _ _ _ _ (fun hh => hk hh.symm)]

end AssocLemmas

set_option maxRecDepth 8000 in
/-- C9: checkpoint ids returned by successive `setCheckpoint` calls strictly
increase; at most 50 checkpoints are retained, the oldest evicted first, so
starting from a fresh session 50 calls retain ids 1–50 and the 51st call
evicts checkpoint 1 leaving ids 2–51; and `rollback` or `save` referencing an
evicted or never-issued id fails with a checkpoint-not-found error, leaving the
state untouched. -/
theorem c9_checkpoint_ids_and_retention :
    (∀ s : UowState, (setCheckpointOp s).1 < (setCheckpointOp (setCheckpointOp s).2).1)
    ∧ (∀ s : UowState, s.cp.checkpoints.length ≤ 50 →
        ((setCheckpointOp s).2).cp.checkpoints.length ≤ 50)
    ∧ (getAvailableCheckpoints
        ((List.range 50).foldl (fun st _ => (setCheckpointOp st).2) UowState.initial).cp
        = List.range' 1 50)
    ∧ (getAvailableCheckpoints
        ((List.range 51).foldl (fun st _ => (setCheckpointOp st).2) UowState.initial).cp
        = List.range' 2 50)
    ∧ (∀ (s : UowState) (cid : Nat) (exec : List ChangeSet → Except String Unit),
        hasCheckpointFn s.cp cid = false →
        rollbackCp s cid = (some ("Checkpoint " ++ toString cid ++ " not found"), s) ∧
        saveOp exec s (some cid) = (some ("Checkpoint " ++ toString cid ++ " not found"), s)) := by
  refine ⟨?_, ?_, ?_, ?_, ?_⟩
  · intro s
    simp [setCheckpointOp]
  · intro s h
    simp only [setCheckpointOp]
    split
    next hgt =>
      simp only [List.length_drop, List.length_append, List.length_singleton] at hgt ⊢
      omega
    next hle =>
      simp only [List.length_append, List.length_singleton] at hle ⊢
      omega
  · decide
  · decide
  · intro s cid exec h
    constructor
    · simp [rollbackCp, getRevertCheckpointError, h]
    · simp [saveOp, getPersistedCheckpointError, h]

/-- Witness for C9 at a fresh session and the never-issued id 7. -/
theorem c9_checkpoint_ids_and_retention_witness :
    UowState.initial.cp.checkpoints.length ≤ 50 ∧
    ((setCheckpointOp UowState.initial).2).cp.checkpoints.length ≤ 50 ∧
    hasCheckpointFn UowState.initial.cp 7 = false ∧
    rollbackCp UowState.initial 7 = (some "Checkpoint 7 not found", UowState.initial) :=
  ⟨by decide,
   c9_checkpoint_ids_and_retention.2.1 UowState.initial (by decide),
   by decide,
   (c9_checkpoint_ids_and_retention.2.2.2.2 UowState.initial 7 (fun _ => .ok ())
     (by decide)).1⟩

theorem hasCheckpoint_find? (c : CpState) (cid : Nat)
    (h : hasCheckpointFn c cid = true) :
    ∃ cp, c.checkpoints.find? (fun cp => cp.id = cid) = some cp := by
  unfold hasCheckpointFn at h
  rw [List.any_eq_true] at h
  obtain ⟨cp, hmem, hp⟩ := h
  have hs : (c.checkpoints.find? (fun cp => cp.id = cid)).isSome := by
    rw [List.find?_isSome]
    exact ⟨cp, hmem, hp⟩
  exact Option.isSome_iff_exists.mp hs

theorem trackerRestore_fields (s : UowState) (snap : List (Nat × SnapTracked)) :
    (trackerRestoreFromSnapshot s snap).cp = s.cp ∧
    (trackerRestoreFromSnapshot s snap).identMap = s.identMap ∧
    (trackerRestoreFromSnapshot s snap).nextId = s.nextId := by
  unfold trackerRestoreFromSnapshot
  suffices hgen : ∀ (acc : UowState),
      (snap.foldl (fun acc et =>
        { acc with
          heap := alSet acc.heap et.1 (objAssign (heapGetD acc.heap et.1) et.2.entityVal)
          tracker := acc.tracker ++
            [(et.1, ⟨et.2.state, et.2.originalValues, et.2.tableName, et.2.primaryKey⟩)] }) acc).cp
        = acc.cp ∧
      (snap.foldl (fun acc et =>
        { acc with
          heap := alSet acc.heap et.1 (objAssign (heapGetD acc.heap et.1) et.2.entityVal)
          tracker := acc.tracker ++
            [(et.1, ⟨et.2.state, et.2.originalValues, et.2.tableName, et.2.primaryKey⟩)] }) acc).identMap
        = acc.identMap ∧
      (snap.foldl (fun acc et =>
        { acc with
          heap := alSet acc.heap et.1 (objAssign (heapGetD acc.heap et.1) et.2.entityVal)
          tracker := acc.tracker ++
            [(et.1, ⟨et.2.state, et.2.originalValues, et.2.tableName, et.2.primaryKey⟩)] }) acc).nextId
        = acc.nextId by
    exact hgen { s with tracker := [] }
  induction snap with
  | nil => intro acc; exact ⟨rfl, rfl, rfl⟩
  | cons et rest ih =>
      intro acc
      simpa using ih _

theorem imRestore_fields (s : UowState) (snap : List (String × List (String × Obj))) :
    (imRestoreFromSnapshot s snap).tracker = s.tracker ∧
    (imRestoreFromSnapshot s snap).cp = s.cp := by
  unfold imRestoreFromSnapshot
  suffices hgen : ∀ (acc : UowState),
      ((snap.foldl (fun acc t =>
        t.2.foldl (fun acc2 kv =>
          let eid := acc2.nextId
          { acc2 with
            heap := acc2.heap ++ [(eid, deepCloneObj kv.2)]
            nextId := eid + 1
            identMap :=
              alSet acc2.identMap t.1 (alSet ((alGet acc2.identMap t.1).getD []) kv.1 eid) })
          acc) acc).tracker = acc.tracker ∧
      (snap.foldl (fun acc t =>
        t.2.foldl (fun acc2 kv =>
          let eid := acc2.nextId
          { acc2 with
            heap := acc2.heap ++ [(eid, deepCloneObj kv.2)]
            nextId := eid + 1
            identMap :=
              alSet acc2.identMap t.1 (alSet ((alGet acc2.identMap t.1).getD []) kv.1 eid) })
          acc) acc).cp = acc.cp) by
    exact hgen { s with identMap := [] }
  have hinner : ∀ (tn : String) (entries : List (String × Obj)) (acc : UowState),
      ((entries.foldl (fun acc2 kv =>
        let eid := acc2.nextId
        { acc2 with
          heap := acc2.heap ++ [(eid, deepCloneObj kv.2)]
          nextId := eid + 1
          identMap :=
            alSet acc2.identMap tn (alSet ((alGet acc2.identMap tn).getD []) kv.1 eid) })
        acc).tracker = acc.tracker ∧
      (entries.foldl (fun acc2 kv =>
        let eid := acc2.nextId
        { acc2 with
          heap := acc2.heap ++ [(eid, deepCloneObj kv.2)]
          nextId := eid + 1
          identMap :=
            alSet acc2.identMap tn (alSet ((alGet acc2.identMap tn).getD []) kv.1 eid) })
        acc).cp = acc.cp) := by
    intro tn entries
    induction entries with
    | nil => intro acc; exact ⟨rfl, rfl⟩
    | cons kv rest ih => intro acc; simpa using ih _
  induction snap with
  | nil => intro acc; exact ⟨rfl, rfl⟩
  | cons t rest ih =>
      intro acc
      have hstep := hinner t.1 t.2 acc
      have hrest := ih ((t.2.foldl (fun acc2 kv =>
        let eid := acc2.nextId
        { acc2 with
          heap := acc2.heap ++ [(eid, deepCloneObj kv.2)]
          nextId := eid + 1
          identMap :=
            alSet acc2.identMap t.1 (alSet ((alGet acc2.identMap t.1).getD []) kv.1 eid) })
        acc))
      constructor
      · calc _ = _ := hrest.1
        _ = acc.tracker := hstep.1
      · calc _ = _ := hrest.2
        _ = acc.cp := hstep.2

theorem getRevertCheckpointError_none_has (c : CpState) (cid : Nat)
    (h : getRevertCheckpointError c cid = none) : hasCheckpointFn c cid = true := by
  by_cases hhas : hasCheckpointFn c cid
  · exact hhas
  · simp [getRevertCheckpointError, hhas] at h

theorem getPersistedCheckpointError_none_has (c : CpState) (cid : Nat)
    (h : getPersistedCheckpointError c cid = none) : hasCheckpointFn c cid = true := by
  by_cases hhas : hasCheckpointFn c cid
  · exact hhas
  · simp [getPersistedCheckpointError, hhas] at h

theorem persistError_none_iff (c : CpState) (cid : Nat) :
    getPersistedCheckpointError c cid = none ↔
      (hasCheckpointFn c cid = true ∧
       (∀ lp, c.lastPersistedCheckpointId = some lp → lp ≤ cid) ∧
       (∀ lr, c.lastRevertedCheckpointId = some lr → cid ≤ lr)) := by
  constructor
  · intro h
    have hhas := getPersistedCheckpointError_none_has c cid h
    refine ⟨hhas, ?_, ?_⟩
    · intro lp hlp
      by_contra hlt
      push_neg at hlt
      have hbefore : beforeLastPersisted c cid = true := by
        simp [beforeLastPersisted, hlp]
        omega
      simp [getPersistedCheckpointError, canPersistToCheckpoint, hhas, hbefore] at h
    · intro lr hlr
      by_contra hgt
      push_neg at hgt
      have hafter : afterLastReverted c cid = true := by
        simp [afterLastReverted, hlr]
        omega
      cases hb : beforeLastPersisted c cid with
      | true =>
          simp [getPersistedCheckpointError, canPersistToCheckpoint, hhas, hb] at h
      | false =>
          simp [getPersistedCheckpointError, canPersistToCheckpoint, hhas, hb, hafter] at h
  · rintro ⟨hhas, hlp, hlr⟩
    have hb : beforeLastPersisted c cid = false := by
      unfold beforeLastPersisted
      cases hl : c.lastPersistedCheckpointId with
      | none => rfl
      | some lp =>
          have := hlp lp hl
          simp [decide_eq_false_iff_not]
          omega
    have ha : afterLastReverted c cid = false := by
      unfold afterLastReverted
      cases hl : c.lastRevertedCheckpointId with
      | none => rfl
      | some lr =>
          have := hlr lr hl
          simp [decide_eq_false_iff_not]
          omega
    simp [getPersistedCheckpointError, canPersistToCheckpoint, hhas, hb, ha]

theorem revertError_none_iff (c : CpState) (cid : Nat) :
    getRevertCheckpointError c cid = none ↔
      (hasCheckpointFn c cid = true ∧
       (∀ lp, c.lastPersistedCheckpointId = some lp → lp ≤ cid)) := by
  constructor
  · intro h
    have hhas := getRevertCheckpointError_none_has c cid h
    refine ⟨hhas, ?_⟩
    intro lp hlp
    by_contra hlt
    push_neg at hlt
    have hbefore : beforeLastPersisted c cid = true := by
      simp [beforeLastPersisted, hlp]
      omega
    simp [getRevertCheckpointError, canRevertToCheckpoint, hhas, hbefore] at h
  · rintro ⟨hhas, hlp⟩
    have hb : beforeLastPersisted c cid = false := by
      unfold beforeLastPersisted
      cases hl : c.lastPersistedCheckpointId with
      | none => rfl
      | some lp =>
          have := hlp lp hl
          simp [decide_eq_false_iff_not]
          omega
    simp [getRevertCheckpointError, canRevertToCheckpoint, hhas, hb]

theorem rollbackCp_state_of_ok (s : UowState) (cid : Nat) (s' : UowState)
    (h : rollbackCp s cid = (none, s')) :
    getRevertCheckpointError s.cp cid = none ∧
    s'.cp = { s.cp with lastRevertedCheckpointId := some cid } := by
  unfold rollbackCp at h
  cases hval : getRevertCheckpointError s.cp cid with
  | some e =>
      rw [hval] at h
      simp at h
  | none =>
      rw [hval] at h
      cases hfind : s.cp.checkpoints.find? (fun cp => cp.id = cid) with
      | none =>
          rw [hfind] at h
          simp at h
      | some cp =>
          rw [hfind] at h
          simp [Prod.ext_iff] at h
          refine ⟨rfl, ?_⟩
          have h1 := (imRestore_fields
            (trackerRestoreFromSnapshot s cp.entityStates) cp.identitySnapshot).2
          have h2 := (trackerRestore_fields s cp.entityStates).1
          rw [← h]
          simp [h1, h2]

theorem rollbackCp_ok_of_valid (s : UowState) (cid : Nat)
    (hval : getRevertCheckpointError s.cp cid = none) :
    ∃ s', rollbackCp s cid = (none, s') := by
  unfold rollbackCp
  rw [hval]
  obtain ⟨cp, hcp⟩ := hasCheckpoint_find? s.cp cid
    (getRevertCheckpointError_none_has _ _ hval)
  rw [hcp]
  exact ⟨_, rfl⟩

theorem saveOp_checkpoint_ok (exec : List ChangeSet → Except String Unit)
    (s : UowState) (cid : Nat) (s' : UowState) (es : List (Nat × SnapTracked))
    (hes : getEntityStatesAtCheckpoint s.cp cid = some es)
    (hne : (computeCheckpointChangeSets s.tracker es).isEmpty = false)
    (h : saveOp exec s (some cid) = (none, s')) :
    getPersistedCheckpointError s.cp cid = none ∧
    exec (computeCheckpointChangeSets s.tracker es) = .ok () ∧
    s' = { s with
      cp := { s.cp with lastPersistedCheckpointId := some cid }
      tracker := reconcileCheckpointSave s.heap s.tracker es
        (computeCheckpointChangeSets s.tracker es) } := by
  unfold saveOp at h
  dsimp only at h
  cases hval : getPersistedCheckpointError s.cp cid with
  | some e =>
      rw [hval] at h
      simp at h
  | none =>
      rw [hval, hes] at h
      simp only [hne, Bool.false_eq_true, if_false] at h
      cases hexec : exec (computeCheckpointChangeSets s.tracker es) with
      | error msg =>
          rw [hexec] at h
          simp at h
      | ok u =>
          cases u
          rw [hexec] at h
          have hhas := getPersistedCheckpointError_none_has s.cp cid hval
          unfold markCheckpointAsPersistedFn at h
          rw [hhas] at h
          simp [Prod.ext_iff] at h
          exact ⟨rfl, rfl, h.symm⟩

/-- C3 (amended): persist validation accepts exactly the retained checkpoints
not before the last persisted id (when set) and not after the last reverted id
(when set); revert validation accepts exactly the retained checkpoints not
before the last persisted id (when set); persisting or reverting the same id
again is always legal; and for checkpoints C1 < C2 < C3, after `save(C2)`
succeeds *having persisted at least one changeset*, `rollback(C1)` fails with
the ordering error while `rollback(C2)` and `rollback(C3)` succeed.  (The
as-stated claim omits the non-empty-changeset proviso; see the
counterexample.) -/
theorem c3_checkpoint_ordering_window :
    (∀ (c : CpState) (cid : Nat),
      getPersistedCheckpointError c cid = none ↔
        (hasCheckpointFn c cid = true ∧
         (∀ lp, c.lastPersistedCheckpointId = some lp → lp ≤ cid) ∧
         (∀ lr, c.lastRevertedCheckpointId = some lr → cid ≤ lr)))
    ∧ (∀ (c : CpState) (cid : Nat),
      getRevertCheckpointError c cid = none ↔
        (hasCheckpointFn c cid = true ∧
         (∀ lp, c.lastPersistedCheckpointId = some lp → lp ≤ cid)))
    ∧ (∀ (c : CpState) (cid : Nat) (c' : CpState),
      getPersistedCheckpointError c cid = none →
      markCheckpointAsPersistedFn c cid = .ok c' →
      getPersistedCheckpointError c' cid = none)
    ∧ (∀ (s : UowState) (cid : Nat) (s' : UowState),
      rollbackCp s cid = (none, s') →
      ∃ s'', rollbackCp s' cid = (none, s''))
    ∧ (∀ (exec : List ChangeSet → Except String Unit) (s : UowState)
        (c1 c2 c3 : Nat) (s' : UowState) (es : List (Nat × SnapTracked)),
      c1 < c2 → c2 < c3 →
      hasCheckpointFn s.cp c1 = true →
      hasCheckpointFn s.cp c3 = true →
      getEntityStatesAtCheckpoint s.cp c2 = some es →
      (computeCheckpointChangeSets s.tracker es).isEmpty = false →
      saveOp exec s (some c2) = (none, s') →
      (rollbackCp s' c1).1 = some ("Cannot revert to checkpoint " ++ toString c1 ++
        " because it is before the last persisted checkpoint " ++ toString c2) ∧
      (rollbackCp s' c2).1 = none ∧
      (rollbackCp s' c3).1 = none) := by
  refine ⟨persistError_none_iff, revertError_none_iff, ?_, ?_, ?_⟩
  · intro c cid c' hval hmark
    unfold markCheckpointAsPersistedFn at hmark
    have hhas := getPersistedCheckpointError_none_has c cid hval
    rw [hhas] at hmark
    simp at hmark
    obtain ⟨hhas', hlp, hlr⟩ := (persistError_none_iff c cid).mp hval
    refine (persistError_none_iff c' cid).mpr ⟨?_, ?_, ?_⟩
    · rw [← hmark]
      exact hhas'
    · intro lp hlp'
      rw [← hmark] at hlp'
      simp at hlp'
      omega
    · intro lr hlr'
      rw [← hmark] at hlr'
      exact hlr lr hlr'
  · intro s cid s' hroll
    obtain ⟨hval, hcp⟩ := rollbackCp_state_of_ok s cid s' hroll
    obtain ⟨hhas, hlp⟩ := (revertError_none_iff s.cp cid).mp hval
    have hval' : getRevertCheckpointError s'.cp cid = none := by
      refine (revertError_none_iff s'.cp cid).mpr ⟨?_, ?_⟩
      · rw [hcp]
        exact hhas
      · intro lp hlp'
        rw [hcp] at hlp'
        exact hlp lp hlp'
    exact rollbackCp_ok_of_valid s' cid hval'
  · intro exec s c1 c2 c3 s' es h12 h23 hc1 hc3 hes hne hsave
    obtain ⟨hval, hexec, hs'⟩ := saveOp_checkpoint_ok exec s c2 s' es hes hne hsave
    have hcp' : s'.cp = { s.cp with lastPersistedCheckpointId := some c2 } := by
      rw [hs']
    have hhas1 : hasCheckpointFn s'.cp c1 = true := by
      rw [hcp']
      exact hc1
    have hhas3 : hasCheckpointFn s'.cp c3 = true := by
      rw [hcp']
      exact hc3
    have hhas2 : hasCheckpointFn s'.cp c2 = true := by
      rw [hcp']
      exact getPersistedCheckpointError_none_has s.cp c2 hval
    refine ⟨?_, ?_, ?_⟩
    · have hbefore : beforeLastPersisted s'.cp c1 = true := by
        rw [hcp']
        simp [beforeLastPersisted]
        omega
      have herr : getRevertCheckpointError s'.cp c1 =
          some ("Cannot revert to checkpoint " ++ toString c1 ++
            " because it is before the last persisted checkpoint " ++ toString c2) := by
        unfold getRevertCheckpointError canRevertToCheckpoint
        rw [hhas1, hbefore]
        simp [hcp', optNatToString]
      unfold rollbackCp
      rw [herr]
    · have hval2 : getRevertCheckpointError s'.cp c2 = none := by
        refine (revertError_none_iff s'.cp c2).mpr ⟨hhas2, ?_⟩
        intro lp hlp
        rw [hcp'] at hlp
        simp at hlp
        omega
      obtain ⟨s'', h⟩ := rollbackCp_ok_of_valid s' c2 hval2
      rw [h]
    · have hval3 : getRevertCheckpointError s'.cp c3 = none := by
        refine (revertError_none_iff s'.cp c3).mpr ⟨hhas3, ?_⟩
        intro lp hlp
        rw [hcp'] at hlp
        simp at hlp
        omega
      obtain ⟨s'', h⟩ := rollbackCp_ok_of_valid s' c3 hval3
      rw [h]

/-- C3 counterexample to the claim as stated: in a fresh session with
checkpoints 1 < 2 < 3 and nothing tracked, `save(2)` succeeds (it returns
without error, as there is nothing to persist), yet `rollback(1)` also
succeeds instead of failing with an ordering error — the empty checkpointed
save returns before marking the checkpoint persisted. -/
theorem c3_checkpoint_ordering_window_counterexample :
    (1 : Nat) < 2 ∧ (2 : Nat) < 3 ∧
    hasCheckpointFn ((setCheckpointOp (setCheckpointOp
      (setCheckpointOp UowState.initial).2).2).2).cp 1 = true ∧
    hasCheckpointFn ((setCheckpointOp (setCheckpointOp
      (setCheckpointOp UowState.initial).2).2).2).cp 3 = true ∧
    (saveOp (fun _ => .ok ()) ((setCheckpointOp (setCheckpointOp
      (setCheckpointOp UowState.initial).2).2).2) (some 2)).1 = none ∧
    (rollbackCp (saveOp (fun _ => .ok ()) ((setCheckpointOp (setCheckpointOp
      (setCheckpointOp UowState.initial).2).2).2) (some 2)).2 1).1 = none := by
  decide

/-- A one-table schema used by the concrete scenarios: `users` with primary-key
column `id`. -/
def usersSchema : Schema := [("users", "id")]

/-- The row for user 1. -/
def aliceRow : Obj := [("id", .vNum 1), ("username", .vStr "alice")]

/-- A session in which user 1 has been loaded (wrapped, identity-mapped and
tracked `Unchanged`). -/
def loadedState : UowState :=
  ⟨[(0, aliceRow)], 1, [("users", [("1", 0)])],
    [(0, ⟨.unchanged, aliceRow, "users", .vNum 1⟩)], ⟨[], 0, none, none⟩⟩

/-- A session holding one `Added` entity (id 1) and three checkpoints 1, 2, 3,
where checkpoint 2 captured the entity as `Added`. -/
def cpScenarioState : UowState :=
  ⟨[(0, [("id", .vNum 1)])], 1, [("users", [("1", 0)])],
    [(0, ⟨.added, [], "users", .vNum 1⟩)],
    ⟨[⟨1, [], []⟩,
      ⟨2, [(0, ⟨[("id", .vNum 1)], .added, [], "users", .vNum 1⟩)], []⟩,
      ⟨3, [], []⟩], 3, none, none⟩⟩

/-- Witness for C3 on the concrete scenario: after a checkpointed save of
checkpoint 2 that persists the entity created before it, rolling back to 1
fails with the ordering error while 2 and 3 succeed. -/
theorem c3_checkpoint_ordering_window_witness :
    (1 : Nat) < 2 ∧ (2 : Nat) < 3 ∧
    hasCheckpointFn cpScenarioState.cp 1 = true ∧
    hasCheckpointFn cpScenarioState.cp 3 = true ∧
    getEntityStatesAtCheckpoint cpScenarioState.cp 2 =
      some [(0, ⟨[("id", .vNum 1)], .added, [], "users", .vNum 1⟩)] ∧
    (computeCheckpointChangeSets cpScenarioState.tracker
      [(0, ⟨[("id", .vNum 1)], .added, [], "users", .vNum 1⟩)]).isEmpty = false ∧
    ((rollbackCp (saveOp (fun _ => .ok ()) cpScenarioState (some 2)).2 1).1 =
      some ("Cannot revert to checkpoint 1 because it is before the last " ++
        "persisted checkpoint 2") ∧
     (rollbackCp (saveOp (fun _ => .ok ()) cpScenarioState (some 2)).2 2).1 = none ∧
     (rollbackCp (saveOp (fun _ => .ok ()) cpScenarioState (some 2)).2 3).1 = none) := by
  refine ⟨by decide, by decide, by decide, by decide, by rfl, by decide, ?_⟩
  have h := c3_checkpoint_ordering_window.2.2.2.2 (fun _ => .ok ())
    cpScenarioState 1 2 3 (saveOp (fun _ => .ok ()) cpScenarioState (some 2)).2
    [(0, ⟨[("id", .vNum 1)], .added, [], "users", .vNum 1⟩)]
    (by decide) (by decide) (by decide) (by decide) (by rfl) (by decide) (by rfl)
  simpa using h

/-- C6: whenever the storage adapter's `executeChangeSets` rejects — in the
full-save form or the checkpointed form — `save` throws the adapter's message
wrapped in the `"Failed to save changes: "` prefix, and the entire in-memory
session state (heap, tracker with its states and baselines, identity map,
checkpoints, and the pending changesets derived from them) is exactly the
state before the call, so the same save can be retried. -/
theorem c6_save_failure_preserves_state :
    (∀ (exec : List ChangeSet → Except String Unit) (s : UowState) (msg : String),
      (computeChangeSets s.heap s.tracker).isEmpty = false →
      exec (computeChangeSets s.heap s.tracker) = .error msg →
      saveOp exec s none = (some ("Failed to save changes: " ++ msg), s))
    ∧ (∀ (exec : List ChangeSet → Except String Unit) (s : UowState) (cid : Nat)
        (es : List (Nat × SnapTracked)) (msg : String),
      getPersistedCheckpointError s.cp cid = none →
      getEntityStatesAtCheckpoint s.cp cid = some es →
      (computeCheckpointChangeSets s.tracker es).isEmpty = false →
      exec (computeCheckpointChangeSets s.tracker es) = .error msg →
      saveOp exec s (some cid) = (some ("Failed to save changes: " ++ msg), s)) := by
  constructor
  · intro exec s msg hne hexec
    unfold saveOp
    dsimp only
    simp only [hne, Bool.false_eq_true, if_false, hexec]
  · intro exec s cid es msg hval hes hne hexec
    unfold saveOp
    dsimp only
    rw [hval, hes]
    simp only [hne, Bool.false_eq_true, if_false, hexec]

/-- Witness for C6: a rejecting adapter on a session holding one `Added`
entity, in both save forms. -/
theorem c6_save_failure_preserves_state_witness :
    (computeChangeSets cpScenarioState.heap cpScenarioState.tracker).isEmpty = false ∧
    saveOp (fun _ => .error "boom") cpScenarioState none =
      (some "Failed to save changes: boom", cpScenarioState) ∧
    saveOp (fun _ => .error "boom") cpScenarioState (some 2) =
      (some "Failed to save changes: boom", cpScenarioState) :=
  ⟨by decide,
   c6_save_failure_preserves_state.1 (fun _ => .error "boom") cpScenarioState "boom"
     (by decide) (by rfl),
   c6_save_failure_preserves_state.2 (fun _ => .error "boom") cpScenarioState 2
     [(0, ⟨[("id", .vNum 1)], .added, [], "users", .vNum 1⟩)] "boom"
     (by rfl) (by rfl) (by decide) (by rfl)⟩

theorem alGet_alDel_ne {κ α : Type} [DecidableEq κ] (l : List (κ × α)) (k k' : κ)
    (h : k' ≠ k) : alGet (alDel l k) k' = alGet l k' := by
  induction l with
  | nil => simp [alDel]
  | cons kv rest ih =>
      by_cases hk : kv.1 = k
      · subst hk
        have hne : kv.1 ≠ k' := Ne.symm h
        simp [alDel, alGet, hne]
      · simp [alDel, alGet, hk, ih]

theorem serializeKey_ok_of_not_nullish (pk : JsValue) (h : isNullish pk = false) :
    ∃ kstr, serializeKey pk = .ok kstr := by
  cases pk <;> simp [isNullish] at h <;> simp [serializeKey]

/-- A scalar `find` whose key is already identity-mapped takes the cache path:
no query is issued, the state does not change, and the result is the cached
entity filtered through the `Deleted` check. -/
theorem findOp_cache_hit (schema : Schema) (db : String → JsValue → Option Obj)
    (s : UowState) (table : String) (f : String) (pk : JsValue) (e : Nat)
    (hnn : isNullish pk = false)
    (harr : ∀ xs, pk ≠ .vArr xs)
    (hget : imGet s.identMap table pk = .ok (some e)) :
    findOp schema db s table [(f, pk)] =
      .ok (.one (findFilterLive s.tracker [e]).head?, s) := by
  cases pk with
  | vArr xs => exact absurd rfl (harr xs)
  | vNull => simp [isNullish] at hnn
  | vUndefined => simp [isNullish] at hnn
  | vBool b =>
      unfold findOp
      simp only [List.map, List.length_cons, List.length_nil, List.headD]
      rw [if_neg (by omega)]
      simp only [isNullish, Bool.false_eq_true, if_false]
      rw [hget]
      unfold findFetch
      simp
  | vNum n =>
      unfold findOp
      simp only [List.map, List.length_cons, List.length_nil, List.headD]
      rw [if_neg (by omega)]
      simp only [isNullish, Bool.false_eq_true, if_false]
      rw [hget]
      unfold findFetch
      simp
  | vStr str =>
      unfold findOp
      simp only [List.map, List.length_cons, List.length_nil, List.headD]
      rw [if_neg (by omega)]
      simp only [isNullish, Bool.false_eq_true, if_false]
      rw [hget]
      unfold findFetch
      simp
  | vDate ms =>
      unfold findOp
      simp only [List.map, List.length_cons, List.length_nil, List.headD]
      rw [if_neg (by omega)]
      simp only [isNullish, Bool.false_eq_true, if_false]
      rw [hget]
      unfold findFetch
      simp
  | vObj fs =>
      unfold findOp
      simp only [List.map, List.length_cons, List.length_nil, List.headD]
      rw [if_neg (by omega)]
      simp only [isNullish, Bool.false_eq_true, if_false]
      rw [hget]
      unfold findFetch
      simp

/-- C7 counterexample to the claim as stated: deleting loaded user 1 leaves
the identity map's `("users", "1")` entry in place — `deleteEntity` passes the
entity object itself to `identityMap.remove`, which serializes it to
`"[object Object]"` and deletes nothing — while the tracking record flips to
`Deleted`.  So delete does not "remove E's (table, primary key) entry from the
Identity Map". -/
theorem c7_delete_identity_map_counterexample :
    (deleteOp usersSchema loadedState "users" 0).toOption.map
      (fun s' => ((alGet s'.identMap "users").getD [], getStateFn s'.tracker 0)) =
    some ([("1", 0)], some .deleted) := by
  decide

/-- C7 (amended): for a tracked entity, `delete` marks the tracking record
`Deleted` and retains it, and calls `identityMap.remove` with the entity
object itself — which serializes to `"[object Object]"`, so the entity's real
(table, primary key) entry survives in the identity map; a subsequent scalar
`find` on the entity's key nevertheless returns `undefined`, because `find`
filters `Deleted` entities out of its results; deleting an untracked entity
throws the untracked-entity error and changes nothing. -/
theorem c7_delete_marks_deleted_and_hides_from_find :
    (∀ (schema : Schema) (s : UowState) (table : String) (eid : Nat)
        (pkF : String) (t : Tracked),
      alGet schema table = some pkF →
      alGet s.tracker eid = some t →
      deleteOp schema s table eid =
        .ok { s with
          tracker := alSet s.tracker eid { t with state := .deleted }
          identMap :=
            match alGet s.identMap table with
            | none => s.identMap
            | some tm => alSet s.identMap table (alDel tm "[object Object]") })
    ∧ (∀ (schema : Schema) (db : String → JsValue → Option Obj) (s : UowState)
        (table : String) (eid : Nat) (pkF : String) (t : Tracked) (f : String)
        (pk : JsValue) (s' : UowState),
      alGet schema table = some pkF →
      alGet s.tracker eid = some t →
      imGet s.identMap table pk = .ok (some eid) →
      isNullish pk = false →
      (∀ xs, pk ≠ .vArr xs) →
      serializeKey pk ≠ .ok "[object Object]" →
      deleteOp schema s table eid = .ok s' →
      imGet s'.identMap table pk = .ok (some eid) ∧
      findOp schema db s' table [(f, pk)] = .ok (.one none, s'))
    ∧ (∀ (schema : Schema) (s : UowState) (table : String) (eid : Nat)
        (pkF : String),
      alGet schema table = some pkF →
      alGet s.tracker eid = none →
      deleteOp schema s table eid = .error ("Cannot delete untracked entity. " ++
        "Entity must be loaded through UnitOfWork or created with create().")) := by
  have hdel : ∀ (schema : Schema) (s : UowState) (table : String) (eid : Nat)
      (pkF : String) (t : Tracked),
      alGet schema table = some pkF →
      alGet s.tracker eid = some t →
      deleteOp schema s table eid =
        .ok { s with
          tracker := alSet s.tracker eid { t with state := .deleted }
          identMap :=
            match alGet s.identMap table with
            | none => s.identMap
            | some tm => alSet s.identMap table (alDel tm "[object Object]") } := by
    intro schema s table eid pkF t hschema htr
    unfold deleteOp
    rw [hschema]
    have hhas : alHas s.tracker eid = true := by simp [alHas, htr]
    rw [hhas]
    simp only [Bool.not_true, Bool.false_eq_true, if_false]
    unfold markDeletedFn
    rw [htr]
    unfold imRemove
    cases him : alGet s.identMap table with
    | none => simp
    | some tm => simp [serializeKey, jsToString]
  refine ⟨hdel, ?_, ?_⟩
  · intro schema db s table eid pkF t f pk s' hschema htr hget hnn harr hkey hdelOk
    rw [hdel schema s table eid pkF t hschema htr] at hdelOk
    have hs' : s' = { s with
        tracker := alSet s.tracker eid { t with state := .deleted }
        identMap :=
          match alGet s.identMap table with
          | none => s.identMap
          | some tm => alSet s.identMap table (alDel tm "[object Object]") } := by
      cases hdelOk
      rfl
    obtain ⟨kstr, hser⟩ := serializeKey_ok_of_not_nullish pk hnn
    have hkstr : kstr ≠ "[object Object]" := by
      intro hh
      rw [hh] at hser
      exact hkey hser
    unfold imGet at hget
    cases him : alGet s.identMap table with
    | none =>
        rw [him] at hget
        simp at hget
    | some tm =>
        rw [him] at hget
        rw [hser] at hget
        simp at hget
        have hget' : imGet s'.identMap table pk = .ok (some eid) := by
          unfold imGet
          rw [hs']
          dsimp only
          rw [him]
          dsimp only
          rw [alGet_alSet_self]
          dsimp only
          rw [hser]
          dsimp only
          rw [alGet_alDel_ne tm "[object Object]" kstr hkstr, hget]
        refine ⟨hget', ?_⟩
        have hfind := findOp_cache_hit schema db s' table f pk eid hnn harr hget'
        have hstate : getStateFn s'.tracker eid = some .deleted := by
          rw [hs']
          simp [getStateFn, alGet_alSet_self]
        rw [hfind]
        simp [findFilterLive, hstate]
  · intro schema s table eid pkF hschema htr
    unfold deleteOp
    rw [hschema]
    have hhas : alHas s.tracker eid = false := by simp [alHas, htr]
    rw [hhas]
    simp

/-- Witness for C7 on loaded user 1: delete succeeds, the pk entry survives,
and a subsequent find returns `undefined`; deleting from an empty session
throws. -/
theorem c7_delete_witness :
    alGet usersSchema "users" = some "id" ∧
    alGet loadedState.tracker 0 = some ⟨.unchanged, aliceRow, "users", .vNum 1⟩ ∧
    imGet loadedState.identMap "users" (.vNum 1) = .ok (some 0) ∧
    (∀ s', deleteOp usersSchema loadedState "users" 0 = .ok s' →
      imGet s'.identMap "users" (.vNum 1) = .ok (some 0) ∧
      findOp usersSchema (fun _ _ => none) s' "users" [("id", .vNum 1)] =
        .ok (.one none, s')) ∧
    deleteOp usersSchema UowState.initial "users" 0 =
      .error ("Cannot delete untracked entity. " ++
        "Entity must be loaded through UnitOfWork or created with create().") :=
  ⟨by rfl, by rfl, by rfl,
   fun s' h => c7_delete_marks_deleted_and_hides_from_find.2.1 usersSchema
     (fun _ _ => none) loadedState "users" 0 "id"
     ⟨.unchanged, aliceRow, "users", .vNum 1⟩ "id" (.vNum 1) s'
     (by rfl) (by rfl) (by rfl) (by rfl) (by intro xs; simp) (by simp [serializeKey, jsToString]; decide) h,
   c7_delete_marks_deleted_and_hides_from_find.2.2 usersSchema UowState.initial
     "users" 0 "id" (by rfl) (by rfl)⟩

/-- C8: the code evaluated at the failing input.  After loaded user 1 is
deleted, the tracking record is retained in state `Deleted`, so the proxy
`set` trap sees a tracked receiver and calls `markModified` — which throws
only for untracked entities and accepts the write for a `Deleted` one
(`src/change-tracker.ts` has no `Deleted` check).  The assignment therefore
succeeds silently: no error is raised, the heap value changes to
`"modified"`, and the state stays `Deleted`.  This contradicts the claim
(and the spec's "Deleted entities reject further mutation (fail fast)", and
the repository's own test "should throw when modifying a character after
deletion").  The find-exclusion half of the claim does hold: both the scalar
and the array form of `find` drop the deleted entity from their results. -/
theorem c8_deleted_entity_mutation_evaluation :
    ((deleteOp usersSchema loadedState "users" 0).toOption.bind
      (fun s' => (proxySet s' 0 "username" (.vStr "modified")).toOption)).map
      (fun s'' => (jsToString (objGetD (heapGetD s''.heap 0) "username"),
        getStateFn s''.tracker 0)) =
      some ("modified", some .deleted) ∧
    ((deleteOp usersSchema loadedState "users" 0).toOption.bind
      (fun s' => (findOp usersSchema (fun _ _ => none) s' "users"
        [("id", .vNum 1)]).toOption)).map (fun r => r.1) = some (.one none) ∧
    ((deleteOp usersSchema loadedState "users" 0).toOption.bind
      (fun s' => (findOp usersSchema (fun _ _ => none) s' "users"
        [("id", .vArr [.vNum 1])]).toOption)).map (fun r => r.1) =
      some (.many []) := by
  refine ⟨by decide, by decide, by decide⟩

theorem alGet_append_single_ne {κ α : Type} [DecidableEq κ]
    (l : List (κ × α)) (k k' : κ) (v : α) (h : k ≠ k') :
    alGet (l ++ [(k, v)]) k' = alGet l k' := by
  cases hl : alGet l k' with
  | some w => exact alGet_append_left l [(k, v)] k' w hl
  | none =>
      rw [alGet_append_right l [(k, v)] k' hl]
      simp [alGet, h]

theorem alGet_of_mem_nodup {κ α : Type} [DecidableEq κ]
    (l : List (κ × α)) (k : κ) (v : α)
    (hnd : (l.map Prod.fst).Nodup) (hmem : (k, v) ∈ l) : alGet l k = some v := by
  induction l with
  | nil => simp at hmem
  | cons kv rest ih =>
      simp at hnd
      rcases List.mem_cons.mp hmem with heq | hmem'
      · subst heq
        simp [alGet]
      · have hk : kv.1 ≠ k := by
          intro hh
          rw [hh] at hnd
          exact hnd.1 v hmem'
        simp [alGet, hk]
        exact ih hnd.2 hmem'

theorem objAssign_objGetD (target source : Obj) (p : String) (v : JsValue)
    (hnd : (source.map Prod.fst).Nodup) (hmem : (p, v) ∈ source) :
    objGetD (objAssign target source) p = v := by
  unfold objAssign objGetD
  rw [foldl_alSet_alGet source target p hnd]
  rw [alGet_of_mem_nodup source p v hnd hmem]
  rfl

theorem trackerRestore_preserved (snap : List (Nat × SnapTracked)) (acc : UowState)
    (eid : Nat) (h : eid ∉ snap.map Prod.fst) :
    heapGetD (snap.foldl (fun acc et =>
      { acc with
        heap := alSet acc.heap et.1 (objAssign (heapGetD acc.heap et.1) et.2.entityVal)
        tracker := acc.tracker ++
          [(et.1, ⟨et.2.state, et.2.originalValues, et.2.tableName, et.2.primaryKey⟩)] })
      acc).heap eid = heapGetD acc.heap eid ∧
    alGet (snap.foldl (fun acc et =>
      { acc with
        heap := alSet acc.heap et.1 (objAssign (heapGetD acc.heap et.1) et.2.entityVal)
        tracker := acc.tracker ++
          [(et.1, ⟨et.2.state, et.2.originalValues, et.2.tableName, et.2.primaryKey⟩)] })
      acc).tracker eid = alGet acc.tracker eid := by
  induction snap generalizing acc with
  | nil => exact ⟨rfl, rfl⟩
  | cons et rest ih =>
      rw [List.map_cons] at h
      simp only [List.mem_cons, not_or] at h
      have hne : et.1 ≠ eid := fun hh => h.1 hh.symm
      have hrest := ih { acc with
          heap := alSet acc.heap et.1 (objAssign (heapGetD acc.heap et.1) et.2.entityVal)
          tracker := acc.tracker ++
            [(et.1, ⟨et.2.state, et.2.originalValues, et.2.tableName, et.2.primaryKey⟩)] }
        h.2
      rw [List.foldl_cons]
      refine ⟨?_, ?_⟩
      · rw [hrest.1]
        simp only [heapGetD]
        rw [alGet_alSet_ne _ _ _ _ (Ne.symm hne)]
      · rw [hrest.2]
        rw [alGet_append_single_ne _ _ _ _ hne]

theorem trackerRestore_entry_aux (snap : List (Nat × SnapTracked)) (acc : UowState)
    (eid : Nat) (st : SnapTracked)
    (hnd : (snap.map Prod.fst).Nodup) (hmem : (eid, st) ∈ snap)
    (hacc : alGet acc.tracker eid = none) :
    heapGetD (snap.foldl (fun acc et =>
      { acc with
        heap := alSet acc.heap et.1 (objAssign (heapGetD acc.heap et.1) et.2.entityVal)
        tracker := acc.tracker ++
          [(et.1, ⟨et.2.state, et.2.originalValues, et.2.tableName, et.2.primaryKey⟩)] })
      acc).heap eid = objAssign (heapGetD acc.heap eid) st.entityVal ∧
    alGet (snap.foldl (fun acc et =>
      { acc with
        heap := alSet acc.heap et.1 (objAssign (heapGetD acc.heap et.1) et.2.entityVal)
        tracker := acc.tracker ++
          [(et.1, ⟨et.2.state, et.2.originalValues, et.2.tableName, et.2.primaryKey⟩)] })
      acc).tracker eid =
      some ⟨st.state, st.originalValues, st.tableName, st.primaryKey⟩ := by
  induction snap generalizing acc with
  | nil => simp at hmem
  | cons et rest ih =>
      simp at hnd
      rcases List.mem_cons.mp hmem with heq | hmem'
      · subst heq
        have hnot : (eid, st).1 ∉ rest.map Prod.fst := by
          intro hh
          obtain ⟨q, hmem2, hfst⟩ := List.mem_map.mp hh
          obtain ⟨k2, st2⟩ := q
          simp at hfst
          subst hfst
          exact hnd.1 st2 hmem2
        have hpres := trackerRestore_preserved rest
          { acc with
            heap := alSet acc.heap eid (objAssign (heapGetD acc.heap eid) st.entityVal)
            tracker := acc.tracker ++
              [(eid, ⟨st.state, st.originalValues, st.tableName, st.primaryKey⟩)] }
          eid hnot
        rw [List.foldl_cons]
        refine ⟨?_, ?_⟩
        · rw [hpres.1]
          simp only [heapGetD]
          rw [alGet_alSet_self]
          rfl
        · rw [hpres.2]
          rw [alGet_append_right _ _ _ hacc]
          simp [alGet]
      · have hne : et.1 ≠ eid := by
          intro hh
          rw [← hh] at hmem'
          exact hnd.1 st hmem'
        have hacc' : alGet ({ acc with
            heap := alSet acc.heap et.1 (objAssign (heapGetD acc.heap et.1) et.2.entityVal)
            tracker := acc.tracker ++
              [(et.1, ⟨et.2.state, et.2.originalValues, et.2.tableName, et.2.primaryKey⟩)] } :
            UowState).tracker eid = none := by
          simp only
          rw [alGet_append_single_ne _ _ _ _ hne]
          exact hacc
        have hrec := ih { acc with
            heap := alSet acc.heap et.1 (objAssign (heapGetD acc.heap et.1) et.2.entityVal)
            tracker := acc.tracker ++
              [(et.1, ⟨et.2.state, et.2.originalValues, et.2.tableName, et.2.primaryKey⟩)] }
          hnd.2 hmem' hacc'
        rw [List.foldl_cons]
        refine ⟨?_, hrec.2⟩
        rw [hrec.1]
        simp only [heapGetD]
        rw [alGet_alSet_ne _ _ _ _ (Ne.symm hne)]

theorem trackerRestore_entry (s : UowState) (snap : List (Nat × SnapTracked))
    (eid : Nat) (st : SnapTracked)
    (hnd : (snap.map Prod.fst).Nodup) (hmem : (eid, st) ∈ snap) :
    heapGetD (trackerRestoreFromSnapshot s snap).heap eid =
      objAssign (heapGetD s.heap eid) st.entityVal ∧
    alGet (trackerRestoreFromSnapshot s snap).tracker eid =
      some ⟨st.state, st.originalValues, st.tableName, st.primaryKey⟩ := by
  unfold trackerRestoreFromSnapshot
  exact trackerRestore_entry_aux snap { s with tracker := [] } eid st hnd hmem
    (by simp [alGet])

theorem imRestore_heap_lt (s : UowState) (snap : List (String × List (String × Obj)))
    (eid : Nat) (h : eid < s.nextId) :
    heapGetD (imRestoreFromSnapshot s snap).heap eid = heapGetD s.heap eid := by
  unfold imRestoreFromSnapshot
  suffices hgen : ∀ (acc : UowState), eid < acc.nextId →
      heapGetD ((snap.foldl (fun acc t =>
        t.2.foldl (fun acc2 kv =>
          let eid := acc2.nextId
          { acc2 with
            heap := acc2.heap ++ [(eid, deepCloneObj kv.2)]
            nextId := eid + 1
            identMap :=
              alSet acc2.identMap t.1 (alSet ((alGet acc2.identMap t.1).getD []) kv.1 eid) })
          acc) acc)).heap eid = heapGetD acc.heap eid ∧
      acc.nextId ≤ ((snap.foldl (fun acc t =>
        t.2.foldl (fun acc2 kv =>
          let eid := acc2.nextId
          { acc2 with
            heap := acc2.heap ++ [(eid, deepCloneObj kv.2)]
            nextId := eid + 1
            identMap :=
              alSet acc2.identMap t.1 (alSet ((alGet acc2.identMap t.1).getD []) kv.1 eid) })
          acc) acc)).nextId by
    exact (hgen { s with identMap := [] } h).1
  have hinner : ∀ (tn : String) (entries : List (String × Obj)) (acc : UowState),
      eid < acc.nextId →
      heapGetD ((entries.foldl (fun acc2 kv =>
        let eid := acc2.nextId
        { acc2 with
          heap := acc2.heap ++ [(eid, deepCloneObj kv.2)]
          nextId := eid + 1
          identMap :=
            alSet acc2.identMap tn (alSet ((alGet acc2.identMap tn).getD []) kv.1 eid) })
        acc)).heap eid = heapGetD acc.heap eid ∧
      acc.nextId ≤ ((entries.foldl (fun acc2 kv =>
        let eid := acc2.nextId
        { acc2 with
          heap := acc2.heap ++ [(eid, deepCloneObj kv.2)]
          nextId := eid + 1
          identMap :=
            alSet acc2.identMap tn (alSet ((alGet acc2.identMap tn).getD []) kv.1 eid) })
        acc)).nextId := by
    intro tn entries
    induction entries with
    | nil => intro acc hlt; exact ⟨rfl, Nat.le_refl _⟩
    | cons kv rest ih =>
        intro acc hlt
        have hstep := ih { acc with
            heap := acc.heap ++ [(acc.nextId, deepCloneObj kv.2)]
            nextId := acc.nextId + 1
            identMap :=
              alSet acc.identMap tn (alSet ((alGet acc.identMap tn).getD []) kv.1 acc.nextId) }
          (by simp; omega)
        rw [List.foldl_cons]
        refine ⟨?_, ?_⟩
        · rw [hstep.1]
          simp only [heapGetD]
          rw [alGet_append_single_ne _ _ _ _ (by omega)]
        · have := hstep.2
          simp at this ⊢
          omega
  induction snap with
  | nil => intro acc hlt; exact ⟨rfl, Nat.le_refl _⟩
  | cons t rest ih =>
      intro acc hlt
      have hstep := hinner t.1 t.2 acc hlt
      have hlt' : eid < ((t.2.foldl (fun acc2 kv =>
        let eid := acc2.nextId
        { acc2 with
          heap := acc2.heap ++ [(eid, deepCloneObj kv.2)]
          nextId := eid + 1
          identMap :=
            alSet acc2.identMap t.1 (alSet ((alGet acc2.identMap t.1).getD []) kv.1 eid) })
        acc)).nextId := by omega
      have hrest := ih _ hlt'
      rw [List.foldl_cons]
      refine ⟨?_, ?_⟩
      · rw [hrest.1, hstep.1]
      · omega

theorem rollbackCp_ok_full (s : UowState) (cid : Nat) (s' : UowState) (cp : Checkpoint)
    (hfind : s.cp.checkpoints.find? (fun c => c.id = cid) = some cp)
    (h : rollbackCp s cid = (none, s')) :
    s' = { imRestoreFromSnapshot (trackerRestoreFromSnapshot s cp.entityStates)
            cp.identitySnapshot with
           cp := { (imRestoreFromSnapshot (trackerRestoreFromSnapshot s cp.entityStates)
            cp.identitySnapshot).cp with lastRevertedCheckpointId := some cid } } := by
  unfold rollbackCp at h
  cases hval : getRevertCheckpointError s.cp cid with
  | some e =>
      rw [hval] at h
      simp at h
  | none =>
      rw [hval, hfind] at h
      simp [Prod.ext_iff] at h
      exact h.symm

/-- C10: a successful rollback restores, for every entity captured in the
checkpoint's tracker snapshot, the entity's field values in place on the same
heap reference (`Object.assign` of the snapshot clone over the live object)
and re-tracks that same reference with its checkpoint-time state and
baselines; so a reference the caller held before the rollback is still
tracked afterwards and observes the checkpoint-time values of every
snapshotted field.  (`eid < s.nextId` says the reference is one the session
actually allocated, so the identity-map restore's fresh clones do not touch
it.) -/
theorem c10_rollback_restores_in_place :
    ∀ (s : UowState) (cid : Nat) (s' : UowState) (cp : Checkpoint)
      (eid : Nat) (st : SnapTracked),
      s.cp.checkpoints.find? (fun c => c.id = cid) = some cp →
      rollbackCp s cid = (none, s') →
      (cp.entityStates.map Prod.fst).Nodup →
      (eid, st) ∈ cp.entityStates →
      eid < s.nextId →
      heapGetD s'.heap eid = objAssign (heapGetD s.heap eid) st.entityVal ∧
      alGet s'.tracker eid =
        some ⟨st.state, st.originalValues, st.tableName, st.primaryKey⟩ ∧
      (∀ p v, (st.entityVal.map Prod.fst).Nodup → (p, v) ∈ st.entityVal →
        objGetD (heapGetD s'.heap eid) p = v) := by
  intro s cid s' cp eid st hfind hroll hnd hmem hlt
  have hs' := rollbackCp_ok_full s cid s' cp hfind hroll
  have htr := trackerRestore_entry s cp.entityStates eid st hnd hmem
  have hnext : (trackerRestoreFromSnapshot s cp.entityStates).nextId = s.nextId :=
    (trackerRestore_fields s cp.entityStates).2.2
  have him := imRestore_heap_lt (trackerRestoreFromSnapshot s cp.entityStates)
    cp.identitySnapshot eid (by rw [hnext]; exact hlt)
  have htrk := (imRestore_fields (trackerRestoreFromSnapshot s cp.entityStates)
    cp.identitySnapshot).1
  have hheap : heapGetD s'.heap eid = objAssign (heapGetD s.heap eid) st.entityVal := by
    rw [hs']
    simp only
    rw [him, htr.1]
  refine ⟨hheap, ?_, ?_⟩
  · rw [hs']
    simp only
    rw [htrk, htr.2]
  · intro p v hndv hmemv
    rw [hheap]
    exact objAssign_objGetD _ _ p v hndv hmemv

/-- Witness for C10: a session with user 1 modified to `"bob"` and a
checkpoint that captured the original `"alice"` values; rollback restores the
same reference in place. -/
theorem c10_rollback_restores_in_place_witness :
    (let s : UowState :=
      ⟨[(0, [("id", JsValue.vNum 1), ("username", .vStr "bob")])], 1,
        [("users", [("1", 0)])],
        [(0, ⟨.modified, aliceRow, "users", .vNum 1⟩)],
        ⟨[⟨1, [(0, ⟨aliceRow, .unchanged, aliceRow, "users", .vNum 1⟩)],
            [("users", [("1", aliceRow)])]⟩], 1, none, none⟩⟩
     (rollbackCp s 1).1 = none ∧
     heapGetD (rollbackCp s 1).2.heap 0 =
       objAssign (heapGetD s.heap 0) aliceRow ∧
     alGet (rollbackCp s 1).2.tracker 0 =
       some ⟨.unchanged, aliceRow, "users", .vNum 1⟩ ∧
     objGetD (heapGetD (rollbackCp s 1).2.heap 0) "username" = .vStr "alice") := by
  intro s
  have hfind : s.cp.checkpoints.find? (fun c => c.id = 1) =
      some ⟨1, [(0, ⟨aliceRow, .unchanged, aliceRow, "users", .vNum 1⟩)],
        [("users", [("1", aliceRow)])]⟩ := by rfl
  have hroll : rollbackCp s 1 = (none, (rollbackCp s 1).2) := by
    rfl
  have h := c10_rollback_restores_in_place s 1 (rollbackCp s 1).2
    ⟨1, [(0, ⟨aliceRow, .unchanged, aliceRow, "users", .vNum 1⟩)],
      [("users", [("1", aliceRow)])]⟩ 0
    ⟨aliceRow, .unchanged, aliceRow, "users", .vNum 1⟩
    hfind hroll (by decide) (by simp) (by decide)
  refine ⟨by rfl, h.1, h.2.1, ?_⟩
  exact h.2.2 "username" (.vStr "alice") (by decide) (by simp [aliceRow])

theorem changeSetEntry_entity (heap : List (Nat × Obj)) (et : Nat × Tracked)
    (cs : ChangeSet) (hf : changeSetEntry heap et = some cs) : cs.entity = et.1 := by
  unfold changeSetEntry at hf
  dsimp only at hf
  cases hst : et.2.state with
  | unchanged => rw [hst] at hf; simp at hf
  | modified =>
      rw [hst] at hf
      dsimp only at hf
      split at hf
      · simp at hf
      · simp at hf
        rw [← hf]
  | added =>
      rw [hst] at hf
      simp at hf
      rw [← hf]
  | deleted =>
      rw [hst] at hf
      simp at hf
      rw [← hf]

theorem computeChangeSets_entity_mem (heap : List (Nat × Obj)) (tracker : TrackerMap)
    (cs : ChangeSet) (h : cs ∈ computeChangeSets heap tracker) :
    cs.entity ∈ tracker.map Prod.fst := by
  obtain ⟨et, hmem, hf⟩ := List.mem_filterMap.mp h
  rw [changeSetEntry_entity heap et cs hf]
  exact List.mem_map.mpr ⟨et, hmem, rfl⟩

theorem computeChangeSets_filter_nil (heap : List (Nat × Obj)) (tracker : TrackerMap)
    (eid : Nat) (h : eid ∉ tracker.map Prod.fst) :
    (computeChangeSets heap tracker).filter (fun cs => cs.entity == eid) = [] := by
  rw [List.filter_eq_nil]
  intro cs hcs
  simp only [beq_iff_eq]
  intro heq
  have hmem := computeChangeSets_entity_mem heap tracker cs hcs
  rw [heq] at hmem
  exact h hmem


theorem computeChangeSets_filter_entry (heap : List (Nat × Obj)) (tracker : TrackerMap)
    (eid : Nat) (t : Tracked)
    (hnd : (tracker.map Prod.fst).Nodup)
    (ht : alGet tracker eid = some t) :
    (computeChangeSets heap tracker).filter (fun cs => cs.entity == eid) =
      (changeSetEntry heap (eid, t)).toList := by
  induction tracker with
  | nil => simp [alGet] at ht
  | cons et rest ih =>
      rw [List.map_cons] at hnd
      have hnd' := List.nodup_cons.mp hnd
      by_cases hk : et.1 = eid
      · have htv : t = et.2 := by
          rw [alGet, if_pos hk] at ht
          exact (Option.some.injEq _ _ ▸ ht).symm
        have hpair : (eid, t) = et := by
          rw [htv, ← hk]
        have hnot : eid ∉ rest.map Prod.fst := by
          rw [← hk]
          exact hnd'.1
        have hrest := computeChangeSets_filter_nil heap rest eid hnot
        rw [hpair]
        unfold computeChangeSets
        rw [List.filterMap_cons]
        cases hf : changeSetEntry heap et with
        | none =>
            rw [← computeChangeSets]
            rw [hrest]
            rfl
        | some cs =>
            rw [List.filter_cons]
            have hcs : cs.entity = eid := by
              rw [changeSetEntry_entity heap et cs hf, hk]
            simp only [hcs, beq_self_eq_true, if_true]
            rw [← computeChangeSets]
            rw [hrest]
            rfl
      · have ht' : alGet rest eid = some t := by
          rw [alGet, if_neg hk] at ht
          exact ht
        have hrec := ih hnd'.2 ht'
        unfold computeChangeSets
        rw [List.filterMap_cons]
        cases hf : changeSetEntry heap et with
        | none =>
            rw [← computeChangeSets]
            exact hrec
        | some cs =>
            rw [List.filter_cons]
            have hcs : cs.entity = et.1 := changeSetEntry_entity heap et cs hf
            have hne : (cs.entity == eid) = false := by
              rw [hcs]
              simp [hk]
            rw [hne]
            simp only [Bool.false_eq_true, if_false]
            rw [← computeChangeSets]
            exact hrec

/-- A caller-side sequence of property assignments to one field of one entity,
each going through the proxy `set` trap. -/
def applyWrites : UowState → Nat → String → List JsValue → Except String UowState
  | s, _, _, [] => .ok s
  | s, eid, property, v :: vs =>
      match proxySet s eid property v with
      | .error e => .error e
      | .ok s₁ => applyWrites s₁ eid property vs

theorem applyWrites_ok (ws : List JsValue) (s : UowState) (eid : Nat) (f : String)
    (ov : Obj) (tn : String) (pk : JsValue) (st : EntityState)
    (hst : st = .unchanged ∨ st = .modified)
    (htr : alGet s.tracker eid = some ⟨st, ov, tn, pk⟩)
    (hov : alHas ov f = true) :
    ∃ (s₁ : UowState) (st' : EntityState),
      applyWrites s eid f ws = .ok s₁ ∧
      (st' = .unchanged ∨ st' = .modified) ∧
      alGet s₁.tracker eid = some ⟨st', ov, tn, pk⟩ ∧
      s₁.tracker.map Prod.fst = s.tracker.map Prod.fst ∧
      (∀ p, p ≠ f → alGet (heapGetD s₁.heap eid) p = alGet (heapGetD s.heap eid) p) := by
  induction ws generalizing s st with
  | nil =>
      exact ⟨s, st, rfl, hst, htr, rfl, fun p _ => rfl⟩
  | cons v vs ih =>
      have hhas : alHas s.tracker eid = true := by simp [alHas, htr]
      have hmem : eid ∈ s.tracker.map Prod.fst := alGet_mem_keys _ _ _ htr
      set target := heapGetD s.heap eid with htarget
      set oldValue := objGetD target f with hold
      by_cases hde : deepEqual oldValue v
      · have hstep : proxySet s eid f v =
            .ok { s with heap := alSet s.heap eid (alSet target f v) } := by
          unfold proxySet
          rw [hhas]
          simp only [← htarget, ← hold, hde]
          simp
        have hrec := ih { s with heap := alSet s.heap eid (alSet target f v) } st hst htr
        obtain ⟨s₁, st', hrun, hst', htr', hkeys, hheap⟩ := hrec
        refine ⟨s₁, st', ?_, hst', htr', hkeys, ?_⟩
        · unfold applyWrites
          rw [hstep]
          exact hrun
        · intro p hp
          rw [hheap p hp]
          simp only [heapGetD]
          rw [alGet_alSet_self]
          simp only [Option.getD_some]
          rw [alGet_alSet_ne _ _ _ _ hp]
      · have hmark : markModifiedFn s.tracker eid f oldValue .vUndefined =
            .ok (alSet s.tracker eid ⟨.modified, ov, tn, pk⟩) := by
          unfold markModifiedFn
          rw [htr]
          rcases hst with hst | hst <;> rw [hst] <;> simp [hov]
        have hstep : proxySet s eid f v =
            .ok { s with
              heap := alSet s.heap eid (alSet target f v)
              tracker := alSet s.tracker eid ⟨.modified, ov, tn, pk⟩ } := by
          unfold proxySet
          rw [hhas]
          simp only [← htarget, ← hold, hde]
          simp only [Bool.false_eq_true, if_false, not_false_eq_true, if_true]
          rw [hmark]
        have htr2 : alGet (alSet s.tracker eid ⟨EntityState.modified, ov, tn, pk⟩) eid =
            some ⟨.modified, ov, tn, pk⟩ := alGet_alSet_self _ _ _
        have hrec := ih { s with
            heap := alSet s.heap eid (alSet target f v)
            tracker := alSet s.tracker eid ⟨.modified, ov, tn, pk⟩ }
          .modified (Or.inr rfl) htr2
        obtain ⟨s₁, st', hrun, hst', htr', hkeys, hheap⟩ := hrec
        refine ⟨s₁, st', ?_, hst', htr', ?_, ?_⟩
        · unfold applyWrites
          rw [hstep]
          exact hrun
        · rw [hkeys]
          simp only
          exact alSet_map_fst_of_mem _ _ _ hmem
        · intro p hp
          rw [hheap p hp]
          simp only [heapGetD]
          rw [alGet_alSet_self]
          simp only [Option.getD_some]
          rw [alGet_alSet_ne _ _ _ _ hp]

/-- C2: for a tracked entity in the `Modified` state, `computeChangeSets`
yields at most one changeset for that entity — exactly one field-diff per
recorded baseline field whose live value differs from its baseline by deep
equality, and no changeset at all when every recorded baseline field
deep-equals its live value; in particular, any sequence of proxy writes to one
field of a freshly-baselined entity that ends with the field deep-equal to its
original baseline leaves the entity without a changeset. -/
theorem c2_self_healing_diff :
    (∀ (heap : List (Nat × Obj)) (tracker : TrackerMap) (eid : Nat) (t : Tracked),
      (tracker.map Prod.fst).Nodup →
      alGet tracker eid = some t →
      t.state = .modified →
      (computeChangeSets heap tracker).filter (fun cs => cs.entity == eid) =
        (let changes := t.originalValues.filterMap (fun pv =>
           let currentValue := objGetD (heapGetD heap eid) pv.1
           if deepEqual pv.2 currentValue then none
           else some (pv.1, pv.2, currentValue))
         if changes.isEmpty then [] else [⟨eid, .modified, changes, t.tableName⟩]))
    ∧ (∀ (heap : List (Nat × Obj)) (tracker : TrackerMap) (eid : Nat) (t : Tracked),
      (tracker.map Prod.fst).Nodup →
      alGet tracker eid = some t →
      t.state = .modified →
      (∀ pv ∈ t.originalValues,
        deepEqual pv.2 (objGetD (heapGetD heap eid) pv.1) = true) →
      (computeChangeSets heap tracker).filter (fun cs => cs.entity == eid) = [])
    ∧ (∀ (s : UowState) (eid : Nat) (obj : Obj) (tn : String) (pk : JsValue)
        (f : String) (ws : List JsValue) (s₁ : UowState),
      (s.tracker.map Prod.fst).Nodup →
      heapGetD s.heap eid = obj →
      alGet s.tracker eid = some ⟨.unchanged, obj, tn, pk⟩ →
      (obj.map Prod.fst).Nodup →
      (∀ pv ∈ obj, deepEqual pv.2 pv.2 = true) →
      alHas obj f = true →
      applyWrites s eid f ws = .ok s₁ →
      deepEqual (objGetD obj f) (objGetD (heapGetD s₁.heap eid) f) = true →
      (computeChangeSets s₁.heap s₁.tracker).filter (fun cs => cs.entity == eid) = []) := by
  have hmain : ∀ (heap : List (Nat × Obj)) (tracker : TrackerMap) (eid : Nat) (t : Tracked),
      (tracker.map Prod.fst).Nodup →
      alGet tracker eid = some t →
      t.state = .modified →
      (computeChangeSets heap tracker).filter (fun cs => cs.entity == eid) =
        (let changes := t.originalValues.filterMap (fun pv =>
           let currentValue := objGetD (heapGetD heap eid) pv.1
           if deepEqual pv.2 currentValue then none
           else some (pv.1, pv.2, currentValue))
         if changes.isEmpty then [] else [⟨eid, .modified, changes, t.tableName⟩]) := by
    intro heap tracker eid t hnd ht hmod
    rw [computeChangeSets_filter_entry heap tracker eid t hnd ht]
    unfold changeSetEntry
    dsimp only
    rw [hmod]
    dsimp only
    split
    · rfl
    · rfl
  refine ⟨hmain, ?_, ?_⟩
  · intro heap tracker eid t hnd ht hmod hall
    rw [hmain heap tracker eid t hnd ht hmod]
    dsimp only
    have hchanges : t.originalValues.filterMap (fun pv =>
        let currentValue := objGetD (heapGetD heap eid) pv.1
        if deepEqual pv.2 currentValue then none
        else some (pv.1, pv.2, currentValue)) = [] := by
      rw [List.filterMap_eq_nil]
      intro pv hpv
      dsimp only
      rw [hall pv hpv]
      simp
    rw [hchanges]
    rfl
  · intro s eid obj tn pk f ws s₁ hnd hheap0 htr hobjnd hrefl hov hrun hback
    obtain ⟨s₁', st', hrun', hst', htr', hkeys, hheap⟩ :=
      applyWrites_ok ws s eid f obj tn pk .unchanged (Or.inl rfl) htr hov
    rw [hrun] at hrun'
    have hseq : s₁ = s₁' := by
      injection hrun'
    subst hseq
    have hnd₁ : (s₁.tracker.map Prod.fst).Nodup := by
      rw [hkeys]
      exact hnd
    rcases hst' with hst' | hst'
    · subst hst'
      rw [computeChangeSets_filter_entry s₁.heap s₁.tracker eid _ hnd₁ htr']
      rfl
    · subst hst'
      rw [computeChangeSets_filter_entry s₁.heap s₁.tracker eid _ hnd₁ htr']
      unfold changeSetEntry
      dsimp only
      have hchanges : obj.filterMap (fun pv =>
          let currentValue := objGetD (heapGetD s₁.heap eid) pv.1
          if deepEqual pv.2 currentValue then none
          else some (pv.1, pv.2, currentValue)) = [] := by
        rw [List.filterMap_eq_nil]
        intro pv hpv
        dsimp only
        by_cases hpf : pv.1 = f
        · have hmemf : (f, pv.2) ∈ obj := by
            rw [← hpf]
            exact hpv
          have hovf : objGetD obj f = pv.2 := by
            unfold objGetD
            rw [alGet_of_mem_nodup obj f pv.2 hobjnd hmemf]
            rfl
          rw [hpf, ← hovf, hback]
          simp
        · have hlive : objGetD (heapGetD s₁.heap eid) pv.1 = pv.2 := by
            unfold objGetD
            rw [hheap pv.1 hpf, hheap0]
            rw [alGet_of_mem_nodup obj pv.1 pv.2 hobjnd (by
              have : pv = (pv.1, pv.2) := rfl
              rw [← this]
              exact hpv)]
            rfl
          rw [hlive, hrefl pv hpv]
          simp
      rw [hchanges]
      rfl

/-- Witness for C2: user 1's `username` is set to `"bob"` and then back to
`"alice"`; the entity contributes no changeset. -/
theorem c2_self_healing_diff_witness :
    (loadedState.tracker.map Prod.fst).Nodup ∧
    heapGetD loadedState.heap 0 = aliceRow ∧
    alGet loadedState.tracker 0 = some ⟨.unchanged, aliceRow, "users", .vNum 1⟩ ∧
    alHas aliceRow "username" = true ∧
    applyWrites loadedState 0 "username" [.vStr "bob", .vStr "alice"] =
      .ok ⟨[(0, [("id", .vNum 1), ("username", .vStr "alice")])], 1,
        [("users", [("1", 0)])],
        [(0, ⟨.modified, aliceRow, "users", .vNum 1⟩)], ⟨[], 0, none, none⟩⟩ ∧
    (computeChangeSets
      [(0, [("id", JsValue.vNum 1), ("username", JsValue.vStr "alice")])]
      [(0, ⟨.modified, aliceRow, "users", .vNum 1⟩)]).filter
      (fun cs => cs.entity == 0) = [] := by
  refine ⟨by decide, by rfl, by rfl, by decide, by rfl, ?_⟩
  have h := c2_self_healing_diff.2.2 loadedState 0 aliceRow "users" (.vNum 1)
    "username" [.vStr "bob", .vStr "alice"]
    ⟨[(0, [("id", .vNum 1), ("username", .vStr "alice")])], 1,
      [("users", [("1", 0)])],
      [(0, ⟨.modified, aliceRow, "users", .vNum 1⟩)], ⟨[], 0, none, none⟩⟩
    (by decide) (by rfl) (by rfl) (by decide) (by decide) (by decide) (by rfl)
    (by decide)
  exact h

theorem alGet_mem {κ α : Type} [DecidableEq κ] (l : List (κ × α)) (k : κ) (v : α)
    (h : alGet l k = some v) : (k, v) ∈ l := by
  induction l with
  | nil => simp [alGet] at h
  | cons kv rest ih =>
      by_cases hk : kv.1 = k
      · rw [alGet, if_pos hk] at h
        have hv : kv.2 = v := by injection h
        refine List.mem_cons.mpr (Or.inl ?_)
        rw [← hk, ← hv]
      · rw [alGet, if_neg hk] at h
        exact List.mem_cons.mpr (Or.inr (ih h))

theorem alGet_none_not_mem_keys {κ α : Type} [DecidableEq κ] (l : List (κ × α)) (k : κ)
    (h : alGet l k = none) : k ∉ l.map Prod.fst := by
  induction l with
  | nil => simp
  | cons kv rest ih =>
      by_cases hk : kv.1 = k
      · rw [alGet, if_pos hk] at h
        simp at h
      · rw [alGet, if_neg hk] at h
        simp [ih h]
        exact fun hh => hk hh.symm

theorem checkpointChangeSetEntry_entity (tracker : TrackerMap) (et : Nat × SnapTracked)
    (cs : ChangeSet) (hf : checkpointChangeSetEntry tracker et = some cs) :
    cs.entity = et.1 := by
  unfold checkpointChangeSetEntry at hf
  dsimp only at hf
  cases htr : alGet tracker et.1 with
  | none => rw [htr] at hf; simp at hf
  | some t =>
      rw [htr] at hf
      dsimp only at hf
      cases hst : et.2.state with
      | unchanged => rw [hst] at hf; simp at hf
      | modified =>
          rw [hst] at hf
          dsimp only at hf
          split at hf
          · simp at hf
          · simp at hf
            rw [← hf]
      | added =>
          rw [hst] at hf
          simp at hf
          rw [← hf]
      | deleted =>
          rw [hst] at hf
          simp at hf
          rw [← hf]

theorem computeCheckpointChangeSets_filter_nil (tracker : TrackerMap)
    (cpState : List (Nat × SnapTracked)) (eid : Nat)
    (h : eid ∉ cpState.map Prod.fst) :
    (computeCheckpointChangeSets tracker cpState).filter
      (fun cs => cs.entity == eid) = [] := by
  rw [List.filter_eq_nil_iff]
  intro cs hcs
  simp only [beq_iff_eq]
  intro heq
  obtain ⟨et, hmem, hf⟩ := List.mem_filterMap.mp hcs
  have hent := checkpointChangeSetEntry_entity tracker et cs hf
  rw [heq] at hent
  exact h (hent ▸ List.mem_map.mpr ⟨et, hmem, rfl⟩)

theorem computeCheckpointChangeSets_filter_entry (tracker : TrackerMap)
    (cpState : List (Nat × SnapTracked)) (eid : Nat) (snap : SnapTracked)
    (hnd : (cpState.map Prod.fst).Nodup)
    (ht : alGet cpState eid = some snap) :
    (computeCheckpointChangeSets tracker cpState).filter
      (fun cs => cs.entity == eid) =
      (checkpointChangeSetEntry tracker (eid, snap)).toList := by
  induction cpState with
  | nil => simp [alGet] at ht
  | cons et rest ih =>
      rw [List.map_cons] at hnd
      have hnd' := List.nodup_cons.mp hnd
      by_cases hk : et.1 = eid
      · have htv : snap = et.2 := by
          rw [alGet, if_pos hk] at ht
          exact (Option.some.injEq _ _ ▸ ht).symm
        have hpair : (eid, snap) = et := by
          rw [htv, ← hk]
        have hnot : eid ∉ rest.map Prod.fst := by
          rw [← hk]
          exact hnd'.1
        have hrest := computeCheckpointChangeSets_filter_nil tracker rest eid hnot
        rw [hpair]
        unfold computeCheckpointChangeSets
        rw [List.filterMap_cons]
        cases hf : checkpointChangeSetEntry tracker et with
        | none =>
            rw [← computeCheckpointChangeSets, hrest]
            rfl
        | some cs =>
            rw [List.filter_cons]
            have hcs : cs.entity = eid := by
              rw [checkpointChangeSetEntry_entity tracker et cs hf, hk]
            simp only [hcs, beq_self_eq_true, if_true]
            rw [← computeCheckpointChangeSets, hrest]
            rfl
      · have ht' : alGet rest eid = some snap := by
          rw [alGet, if_neg hk] at ht
          exact ht
        have hrec := ih hnd'.2 ht'
        unfold computeCheckpointChangeSets
        rw [List.filterMap_cons]
        cases hf : checkpointChangeSetEntry tracker et with
        | none =>
            rw [← computeCheckpointChangeSets]
            exact hrec
        | some cs =>
            rw [List.filter_cons]
            have hcs : cs.entity = et.1 := checkpointChangeSetEntry_entity tracker et cs hf
            have hne : (cs.entity == eid) = false := by
              rw [hcs]
              simp [hk]
            rw [hne]
            simp only [Bool.false_eq_true, if_false]
            rw [← computeCheckpointChangeSets]
            exact hrec

/-- C4: the checkpointed `save` builds its changesets solely from the tracker
state captured at the checkpoint: an entity captured as `Added` or `Deleted`
(and still tracked) is included unconditionally with an empty change map; an
entity captured as `Modified` (and still tracked) is diffed against the
checkpoint's own field baselines and captured values; an entity absent from
the checkpoint's snapshot — e.g. one first tracked after the checkpoint — is
never part of the changesets, hence not persisted. -/
theorem c4_checkpoint_save_uses_captured_state :
    (∀ (tracker : TrackerMap) (cpState : List (Nat × SnapTracked))
        (eid : Nat) (snap : SnapTracked),
      alGet cpState eid = some snap →
      alHas tracker eid = true →
      snap.state = .added →
      (⟨eid, .added, [], snap.tableName⟩ : ChangeSet) ∈
        computeCheckpointChangeSets tracker cpState)
    ∧ (∀ (tracker : TrackerMap) (cpState : List (Nat × SnapTracked))
        (eid : Nat) (snap : SnapTracked),
      alGet cpState eid = some snap →
      alHas tracker eid = true →
      snap.state = .deleted →
      (⟨eid, .deleted, [], snap.tableName⟩ : ChangeSet) ∈
        computeCheckpointChangeSets tracker cpState)
    ∧ (∀ (tracker : TrackerMap) (cpState : List (Nat × SnapTracked))
        (eid : Nat) (snap : SnapTracked),
      (cpState.map Prod.fst).Nodup →
      alGet cpState eid = some snap →
      alHas tracker eid = true →
      snap.state = .modified →
      (computeCheckpointChangeSets tracker cpState).filter
        (fun cs => cs.entity == eid) =
        (let changes := snap.originalValues.filterMap (fun pv =>
           let checkpointValue := objGetD snap.entityVal pv.1
           if strictEqJs pv.2 checkpointValue then none
           else some (pv.1, pv.2, checkpointValue))
         if changes.isEmpty then [] else [⟨eid, .modified, changes, snap.tableName⟩]))
    ∧ (∀ (tracker : TrackerMap) (cpState : List (Nat × SnapTracked)) (eid : Nat),
      alGet cpState eid = none →
      (computeCheckpointChangeSets tracker cpState).filter
        (fun cs => cs.entity == eid) = []) := by
  have hentry : ∀ (tracker : TrackerMap) (eid : Nat) (snap : SnapTracked) (t : Tracked),
      alGet tracker eid = some t →
      (snap.state = .added →
        checkpointChangeSetEntry tracker (eid, snap) =
          some ⟨eid, .added, [], snap.tableName⟩) ∧
      (snap.state = .deleted →
        checkpointChangeSetEntry tracker (eid, snap) =
          some ⟨eid, .deleted, [], snap.tableName⟩) := by
    intro tracker eid snap t htr
    unfold checkpointChangeSetEntry
    dsimp only
    rw [htr]
    constructor
    · intro hst
      rw [hst]
    · intro hst
      rw [hst]
  refine ⟨?_, ?_, ?_, ?_⟩
  · intro tracker cpState eid snap hget hhas hst
    obtain ⟨t, htr⟩ := Option.isSome_iff_exists.mp (by simpa [alHas] using hhas)
    have hmem := alGet_mem cpState eid snap hget
    exact List.mem_filterMap.mpr ⟨(eid, snap), hmem, (hentry tracker eid snap t htr).1 hst⟩
  · intro tracker cpState eid snap hget hhas hst
    obtain ⟨t, htr⟩ := Option.isSome_iff_exists.mp (by simpa [alHas] using hhas)
    have hmem := alGet_mem cpState eid snap hget
    exact List.mem_filterMap.mpr ⟨(eid, snap), hmem, (hentry tracker eid snap t htr).2 hst⟩
  · intro tracker cpState eid snap hnd hget hhas hst
    rw [computeCheckpointChangeSets_filter_entry tracker cpState eid snap hnd hget]
    obtain ⟨t, htr⟩ := Option.isSome_iff_exists.mp (by simpa [alHas] using hhas)
    unfold checkpointChangeSetEntry
    dsimp only
    rw [htr, hst]
    dsimp only
    split
    · rfl
    · rfl
  · intro tracker cpState eid hget
    exact computeCheckpointChangeSets_filter_nil tracker cpState eid
      (alGet_none_not_mem_keys cpState eid hget)

/-- Witness for C4 at the concrete checkpoint scenario: the entity created
before the checkpoint (captured `Added`) is included; an id never captured
(5) contributes nothing. -/
theorem c4_checkpoint_save_uses_captured_state_witness :
    alGet [(0, (⟨[("id", JsValue.vNum 1)], .added, [], "users", .vNum 1⟩ : SnapTracked))]
      0 = some ⟨[("id", .vNum 1)], .added, [], "users", .vNum 1⟩ ∧
    alHas cpScenarioState.tracker 0 = true ∧
    (⟨0, .added, [], "users"⟩ : ChangeSet) ∈
      computeCheckpointChangeSets cpScenarioState.tracker
        [(0, ⟨[("id", .vNum 1)], .added, [], "users", .vNum 1⟩)] ∧
    (computeCheckpointChangeSets cpScenarioState.tracker
        [(0, ⟨[("id", .vNum 1)], .added, [], "users", .vNum 1⟩)]).filter
      (fun cs => cs.entity == 5) = [] :=
  ⟨by rfl, by decide,
   c4_checkpoint_save_uses_captured_state.1 cpScenarioState.tracker
     [(0, ⟨[("id", .vNum 1)], .added, [], "users", .vNum 1⟩)] 0
     ⟨[("id", .vNum 1)], .added, [], "users", .vNum 1⟩ (by rfl) (by decide) (by rfl),
   c4_checkpoint_save_uses_captured_state.2.2.2 cpScenarioState.tracker
     [(0, ⟨[("id", .vNum 1)], .added, [], "users", .vNum 1⟩)] 5 (by rfl)⟩


theorem reconcile_cons (heap : List (Nat × Obj)) (tracker : TrackerMap)
    (cpState : List (Nat × SnapTracked)) (cs : ChangeSet) (rest : List ChangeSet) :
    reconcileCheckpointSave heap tracker cpState (cs :: rest) =
      reconcileCheckpointSave heap (reconcileCheckpointSave heap tracker cpState [cs])
        cpState rest := rfl

theorem reconcile_single_other (heap : List (Nat × Obj)) (tr : TrackerMap)
    (cpState : List (Nat × SnapTracked)) (cs : ChangeSet) (eid : Nat)
    (hne : cs.entity ≠ eid) :
    alGet (reconcileCheckpointSave heap tr cpState [cs]) eid = alGet tr eid := by
  unfold reconcileCheckpointSave
  rw [List.foldl_cons, List.foldl_nil]
  cases htr : alGet tr cs.entity with
  | none =>
      cases hsnap : alGet cpState cs.entity with
      | none => rfl
      | some snap => rfl
  | some tracked =>
      cases hsnap : alGet cpState cs.entity with
      | none => rfl
      | some checkpointTracked =>
          dsimp only
          unfold markOriginalValuesAsPersisted
          rw [alGet_alSet_self]
          dsimp only
          rw [alGet_alSet_ne _ _ _ _ (Ne.symm hne), alGet_alSet_ne _ _ _ _ (Ne.symm hne)]

theorem reconcile_single_self (heap : List (Nat × Obj)) (tr : TrackerMap)
    (cpState : List (Nat × SnapTracked)) (cs : ChangeSet) (t : Tracked)
    (snap : SnapTracked)
    (ht : alGet tr cs.entity = some t)
    (hsnap : alGet cpState cs.entity = some snap) :
    alGet (reconcileCheckpointSave heap tr cpState [cs]) cs.entity =
      (let originalValues :=
        snap.entityVal.foldl (fun m kv => alSet m kv.1 kv.2) t.originalValues
       let hasChanges := originalValues.any
         (fun pv => !(strictEqJs (objGetD (heapGetD heap cs.entity) pv.1) pv.2))
       some { t with
         originalValues := originalValues
         state := if hasChanges then EntityState.modified else EntityState.unchanged }) := by
  unfold reconcileCheckpointSave
  rw [List.foldl_cons, List.foldl_nil]
  rw [ht, hsnap]
  dsimp only
  unfold markOriginalValuesAsPersisted
  rw [alGet_alSet_self]
  dsimp only
  rw [alGet_alSet_self]

theorem reconcile_preserved (heap : List (Nat × Obj)) (cpState : List (Nat × SnapTracked))
    (changeSets : List ChangeSet) (tracker : TrackerMap) (eid : Nat)
    (h : eid ∉ changeSets.map (fun cs => cs.entity)) :
    alGet (reconcileCheckpointSave heap tracker cpState changeSets) eid =
      alGet tracker eid := by
  induction changeSets generalizing tracker with
  | nil => rfl
  | cons cs rest ih =>
      rw [List.map_cons] at h
      simp only [List.mem_cons, not_or] at h
      have hne : cs.entity ≠ eid := fun hh => h.1 hh.symm
      rw [reconcile_cons, ih _ h.2, reconcile_single_other heap tracker cpState cs eid hne]

theorem reconcile_entry (heap : List (Nat × Obj)) (cpState : List (Nat × SnapTracked))
    (changeSets : List ChangeSet) (tracker : TrackerMap) (cs : ChangeSet)
    (t : Tracked) (snap : SnapTracked)
    (hnd : (changeSets.map (fun cs => cs.entity)).Nodup)
    (hmem : cs ∈ changeSets)
    (ht : alGet tracker cs.entity = some t)
    (hsnap : alGet cpState cs.entity = some snap) :
    alGet (reconcileCheckpointSave heap tracker cpState changeSets) cs.entity =
      (let originalValues :=
        snap.entityVal.foldl (fun m kv => alSet m kv.1 kv.2) t.originalValues
       let hasChanges := originalValues.any
         (fun pv => !(strictEqJs (objGetD (heapGetD heap cs.entity) pv.1) pv.2))
       some { t with
         originalValues := originalValues
         state := if hasChanges then EntityState.modified else EntityState.unchanged }) := by
  induction changeSets generalizing tracker with
  | nil => simp at hmem
  | cons cs0 rest ih =>
      rw [List.map_cons] at hnd
      have hnd' := List.nodup_cons.mp hnd
      rcases List.mem_cons.mp hmem with heq | hmem'
      · subst heq
        have hnot : cs.entity ∉ rest.map (fun cs => cs.entity) := hnd'.1
        rw [reconcile_cons, reconcile_preserved heap cpState rest _ cs.entity hnot]
        exact reconcile_single_self heap tracker cpState cs t snap ht hsnap
      · have hne : cs0.entity ≠ cs.entity := by
          intro hh
          exact hnd'.1 (hh ▸ List.mem_map.mpr ⟨cs, hmem', rfl⟩)
        rw [reconcile_cons]
        refine ih _ hnd'.2 hmem' ?_
        rw [reconcile_single_other heap tracker cpState cs0 cs.entity hne]
        exact ht

theorem any_not_eq_not_all {α : Type} (l : List α) (p : α → Bool) :
    (l.any fun x => !(p x)) = !(l.all p) := by
  induction l with
  | nil => rfl
  | cons x xs ih => simp [List.any_cons, List.all_cons, ih]

/-- C5: for every successful checkpointed `save(C)` and every entity it
persisted that was Modified at C (tracked at id `cs.entity`, still tracked with
record `t`, captured at C as `snap`), the entity's tracked baseline afterwards
equals the field values captured at checkpoint C (pointwise, given that the
old baseline's keys all appear among the captured fields, as they do for
entities whose field set does not shrink), and the entity's state becomes
Unchanged exactly when every field of the newly-persisted baseline strictly
equals the current live value, otherwise it is Modified. -/
theorem c5_post_persist_reconciliation
    (exec : List ChangeSet → Except String Unit) (s : UowState) (cid : Nat)
    (s' : UowState) (es : List (Nat × SnapTracked)) (cs : ChangeSet)
    (t : Tracked) (snap : SnapTracked)
    (hes : getEntityStatesAtCheckpoint s.cp cid = some es)
    (hne : (computeCheckpointChangeSets s.tracker es).isEmpty = false)
    (hsave : saveOp exec s (some cid) = (none, s'))
    (hnd : ((computeCheckpointChangeSets s.tracker es).map (fun c => c.entity)).Nodup)
    (hmem : cs ∈ computeCheckpointChangeSets s.tracker es)
    (_hmodC : snap.state = EntityState.modified)
    (ht : alGet s.tracker cs.entity = some t)
    (hsnap : alGet es cs.entity = some snap)
    (hkeys : ∀ p ∈ t.originalValues.map Prod.fst, p ∈ snap.entityVal.map Prod.fst)
    (hsnd : (snap.entityVal.map Prod.fst).Nodup) :
    ∃ t', alGet s'.tracker cs.entity = some t' ∧
      (∀ p, alGet t'.originalValues p = alGet snap.entityVal p) ∧
      t'.state =
        (if t'.originalValues.all
            (fun pv => strictEqJs (objGetD (heapGetD s'.heap cs.entity) pv.1) pv.2)
         then EntityState.unchanged else EntityState.modified) := by
  obtain ⟨-, -, hs'⟩ := saveOp_checkpoint_ok exec s cid s' es hes hne hsave
  subst hs'
  have hentry := reconcile_entry s.heap es (computeCheckpointChangeSets s.tracker es)
    s.tracker cs t snap hnd hmem ht hsnap
  dsimp only at hentry ⊢
  refine ⟨_, hentry, ?_, ?_⟩
  · intro p
    dsimp only
    rw [foldl_alSet_alGet snap.entityVal t.originalValues p hsnd]
    cases hp : alGet snap.entityVal p with
    | some v => rfl
    | none =>
        dsimp only
        exact alGet_eq_none_of_not_mem_keys t.originalValues p
          (fun hin => alGet_none_not_mem_keys snap.entityVal p hp (hkeys p hin))
  · dsimp only
    rw [any_not_eq_not_all]
    cases hall : (snap.entityVal.foldl (fun m kv => alSet m kv.1 kv.2)
        t.originalValues).all
        (fun pv => strictEqJs (objGetD (heapGetD s.heap cs.entity) pv.1) pv.2) with
    | false => simp [hall]
    | true => simp [hall]

def c5Tracked : Tracked :=
  ⟨.modified, [("id", .vNum 1), ("username", .vStr "alice")], "users", .vNum 1⟩

def c5Snap : SnapTracked :=
  ⟨[("id", .vNum 1), ("username", .vStr "carol")], .modified,
   [("id", .vNum 1), ("username", .vStr "alice")], "users", .vNum 1⟩

def c5Es : List (Nat × SnapTracked) := [(0, c5Snap)]

def c5State : UowState :=
  ⟨[(0, [("id", .vNum 1), ("username", .vStr "carol")])], 1,
   [("users", [("1", 0)])],
   [(0, c5Tracked)],
   ⟨[⟨1, c5Es, [("users", [("1", [("id", .vNum 1), ("username", .vStr "carol")])])]⟩],
    1, none, none⟩⟩

def c5Cs : ChangeSet :=
  ⟨0, .modified, [("username", .vStr "alice", .vStr "carol")], "users"⟩

def c5Saved : UowState := (saveOp (fun _ => Except.ok ()) c5State (some 1)).2

theorem c5_post_persist_reconciliation_witness :
    getEntityStatesAtCheckpoint c5State.cp 1 = some c5Es ∧
    (∃ t', alGet c5Saved.tracker c5Cs.entity = some t' ∧
      (∀ p, alGet t'.originalValues p = alGet c5Snap.entityVal p) ∧
      t'.state =
        (if t'.originalValues.all
            (fun pv => strictEqJs (objGetD (heapGetD c5Saved.heap c5Cs.entity) pv.1) pv.2)
         then EntityState.unchanged else EntityState.modified)) :=
  ⟨rfl,
   c5_post_persist_reconciliation (fun _ => Except.ok ()) c5State 1 c5Saved c5Es c5Cs
     c5Tracked c5Snap rfl rfl rfl (by decide)
     (List.mem_cons_self c5Cs []) rfl rfl rfl (by decide) (by decide)⟩

theorem findFilterLive_single (tracker : TrackerMap) (e : Nat)
    (h : getStateFn tracker e ≠ some EntityState.deleted) :
    findFilterLive tracker [e] = [e] := by
  unfold findFilterLive
  cases hst : getStateFn tracker e with
  | none => simp [List.filter_cons, List.filter_nil, hst]
  | some st =>
      cases st with
      | deleted => exact absurd hst h
      | unchanged => simp [List.filter_cons, List.filter_nil, hst]
      | modified => simp [List.filter_cons, List.filter_nil, hst]
      | added => simp [List.filter_cons, List.filter_nil, hst]

theorem findFilterLive_single_head (tracker : TrackerMap) (c e : Nat)
    (h : (findFilterLive tracker [c]).head? = some e) :
    e = c ∧ getStateFn tracker c ≠ some EntityState.deleted := by
  unfold findFilterLive at h
  cases hst : getStateFn tracker c with
  | none =>
      simp [List.filter_cons, List.filter_nil, hst] at h
      exact ⟨h.symm, by simp [hst]⟩
  | some st =>
      cases st with
      | deleted => simp [List.filter_cons, List.filter_nil, hst] at h
      | unchanged =>
          simp [List.filter_cons, List.filter_nil, hst] at h
          exact ⟨h.symm, by simp [hst]⟩
      | modified =>
          simp [List.filter_cons, List.filter_nil, hst] at h
          exact ⟨h.symm, by simp [hst]⟩
      | added =>
          simp [List.filter_cons, List.filter_nil, hst] at h
          exact ⟨h.symm, by simp [hst]⟩

theorem imGet_after_register (im : IdentMap) (table : String) (pk : JsValue)
    (kstr : String) (eid : Nat) (hser : serializeKey pk = .ok kstr) :
    imGet (alSet im table (alSet ((alGet im table).getD []) kstr eid)) table pk =
      .ok (some eid) := by
  unfold imGet
  rw [alGet_alSet_self]
  dsimp only
  rw [hser]
  dsimp only
  rw [alGet_alSet_self]

theorem getState_after_track_fresh (heap : List (Nat × Obj)) (tracker : TrackerMap)
    (eid : Nat) (table pkField : String) (st : EntityState)
    (hfresh : alGet tracker eid = none) :
    getStateFn (trackFn heap tracker eid table pkField st) eid = some st := by
  unfold trackFn
  have hh : alHas tracker eid = false := by unfold alHas; rw [hfresh]; rfl
  rw [hh]
  simp only [Bool.false_eq_true, if_false]
  unfold getStateFn
  rw [alGet_append_right _ _ _ hfresh]
  simp [alGet]

theorem wrapSingleResult_miss (s : UowState) (table pkField : String) (row : Obj)
    (pk : JsValue)
    (hpk : extractPk pkField row = pk)
    (hmiss : imGet s.identMap table pk = .ok none)
    (hnn : isNullish pk = false)
    (hfresh : alGet s.tracker s.nextId = none) :
    ∃ s₂, wrapSingleResult s table pkField row = .ok (s.nextId, s₂) ∧
      imGet s₂.identMap table pk = .ok (some s.nextId) ∧
      getStateFn s₂.tracker s.nextId = some EntityState.unchanged := by
  obtain ⟨kstr, hser⟩ := serializeKey_ok_of_not_nullish pk hnn
  unfold wrapSingleResult
  dsimp only
  rw [hpk, hmiss]
  dsimp only
  unfold allocEntity
  dsimp only
  unfold imRegister
  dsimp only
  rw [hser]
  dsimp only
  refine ⟨_, rfl, ?_, ?_⟩
  · exact imGet_after_register s.identMap table pk kstr s.nextId hser
  · exact getState_after_track_fresh _ s.tracker s.nextId table pkField .unchanged hfresh

theorem find_scalar_core (schema : Schema) (db : String → JsValue → Option Obj)
    (s : UowState) (table : String) (pk : JsValue) (pkField : String)
    (e : Nat) (s₁ : UowState)
    (hschema : alGet schema table = some pkField)
    (hdb : ∀ row, db table pk = some row → extractPk pkField row = pk)
    (hfresh : alGet s.tracker s.nextId = none)
    (hnn : isNullish pk = false)
    (h : (match imGet s.identMap table pk with
          | .error err => .error err
          | .ok cache =>
              let rq :=
                match cache with
                | none => (([] : List Nat), [pk])
                | some cached => ([cached], ([] : List JsValue))
              match findFetch schema db s table rq.1 rq.2 with
              | .error err => .error err
              | .ok (results, s₂) =>
                  .ok (.one (findFilterLive s₂.tracker results).head?, s₂) :
            Except String (FindResult × UowState)) =
      Except.ok (FindResult.one (some e), s₁)) :
    imGet s₁.identMap table pk = .ok (some e) ∧
      getStateFn s₁.tracker e ≠ some EntityState.deleted := by
  cases himg : imGet s.identMap table pk with
  | error err => rw [himg] at h; simp at h
  | ok cache =>
      rw [himg] at h
      cases cache with
      | some cached =>
          dsimp only at h
          have hff : findFetch schema db s table [cached] [] = .ok ([cached], s) := by
            unfold findFetch
            simp
          rw [hff] at h
          dsimp only at h
          simp only [Except.ok.injEq, Prod.mk.injEq, FindResult.one.injEq] at h
          obtain ⟨hh, hs⟩ := h
          subst hs
          obtain ⟨he, hnd⟩ := findFilterLive_single_head s.tracker cached e hh
          subst he
          exact ⟨himg, hnd⟩
      | none =>
          dsimp only at h
          unfold findFetch at h
          rw [if_pos (by simp)] at h
          rw [hschema] at h
          dsimp only at h
          cases hrow : db table pk with
          | none =>
              have hfetched : ([pk].filterMap (db table)) = [] := by
                simp [List.filterMap_cons, List.filterMap_nil, hrow]
              rw [hfetched] at h
              simp [findFilterLive] at h
          | some row =>
              have hpk := hdb row hrow
              have hfetched : ([pk].filterMap (db table)) = [row] := by
                simp [List.filterMap_cons, List.filterMap_nil, hrow]
              rw [hfetched] at h
              rw [if_pos (by simp)] at h
              obtain ⟨s₂, hw, hget2, hst2⟩ :=
                wrapSingleResult_miss s table pkField row pk hpk himg hnn hfresh
              have hwq : wrapQueryResults s table pkField [row] = .ok ([s.nextId], s₂) := by
                unfold wrapQueryResults
                rw [hw]
                rfl
              rw [hwq] at h
              dsimp only at h
              simp only [List.nil_append] at h
              simp only [Except.ok.injEq, Prod.mk.injEq, FindResult.one.injEq] at h
              obtain ⟨hh, hs⟩ := h
              subst hs
              obtain ⟨he, hnd⟩ := findFilterLive_single_head s₂.tracker s.nextId e hh
              subst he
              exact ⟨hget2, hnd⟩

theorem findOp_one_found (schema : Schema) (db : String → JsValue → Option Obj)
    (s : UowState) (table f : String) (pk : JsValue) (pkField : String)
    (e : Nat) (s₁ : UowState)
    (hschema : alGet schema table = some pkField)
    (hdb : ∀ row, db table pk = some row → extractPk pkField row = pk)
    (hfresh : alGet s.tracker s.nextId = none)
    (h : findOp schema db s table [(f, pk)] = .ok (.one (some e), s₁)) :
    isNullish pk = false ∧ (∀ xs, pk ≠ .vArr xs) ∧
      imGet s₁.identMap table pk = .ok (some e) ∧
      getStateFn s₁.tracker e ≠ some EntityState.deleted := by
  unfold findOp at h
  simp only [List.map, List.length_cons, List.length_nil, List.headD] at h
  rw [if_neg (by omega)] at h
  cases hnn : isNullish pk with
  | true => rw [hnn] at h; simp at h
  | false =>
      rw [hnn] at h
      simp only [Bool.false_eq_true, if_false] at h
      cases pk with
      | vArr xs =>
          exfalso
          dsimp only at h
          cases him : imGetMany s.identMap table xs with
          | error err => rw [him] at h; simp at h
          | ok cache =>
              rw [him] at h
              cases cache with
              | none =>
                  dsimp only at h
                  cases hf : findFetch schema db s table [] xs with
                  | error err => rw [hf] at h; simp at h
                  | ok p =>
                      obtain ⟨res, s₂⟩ := p
                      rw [hf] at h
                      simp at h
              | some fm =>
                  dsimp only at h
                  cases hf : findFetch schema db s table fm.1 fm.2 with
                  | error err => rw [hf] at h; simp at h
                  | ok p =>
                      obtain ⟨res, s₂⟩ := p
                      rw [hf] at h
                      simp at h
      | vNull => simp [isNullish] at hnn
      | vUndefined => simp [isNullish] at hnn
      | vBool b =>
          exact ⟨hnn, fun xs hh => JsValue.noConfusion hh,
            find_scalar_core schema db s table (.vBool b) pkField e s₁
              hschema hdb hfresh hnn h⟩
      | vNum n =>
          exact ⟨hnn, fun xs hh => JsValue.noConfusion hh,
            find_scalar_core schema db s table (.vNum n) pkField e s₁
              hschema hdb hfresh hnn h⟩
      | vStr str =>
          exact ⟨hnn, fun xs hh => JsValue.noConfusion hh,
            find_scalar_core schema db s table (.vStr str) pkField e s₁
              hschema hdb hfresh hnn h⟩
      | vDate ms =>
          exact ⟨hnn, fun xs hh => JsValue.noConfusion hh,
            find_scalar_core schema db s table (.vDate ms) pkField e s₁
              hschema hdb hfresh hnn h⟩
      | vObj fs =>
          exact ⟨hnn, fun xs hh => JsValue.noConfusion hh,
            find_scalar_core schema db s table (.vObj fs) pkField e s₁
              hschema hdb hfresh hnn h⟩

theorem createOp_ok_char (schema : Schema) (s : UowState) (table : String)
    (data : Obj) (pkField : String) (e : Nat) (s₁ : UowState)
    (hschema : alGet schema table = some pkField)
    (hfresh : alGet s.tracker s.nextId = none)
    (h : createOp schema s table data = .ok (e, s₁)) :
    isNullish (extractPk pkField data) = false ∧
      imGet s₁.identMap table (extractPk pkField data) = .ok (some e) ∧
      getStateFn s₁.tracker e = some EntityState.added := by
  unfold createOp at h
  rw [hschema] at h
  dsimp only at h
  cases hnn : isNullish (extractPk pkField data) with
  | true => rw [hnn] at h; simp at h
  | false =>
      rw [hnn] at h
      simp only [Bool.false_eq_true, if_false] at h
      obtain ⟨kstr, hser⟩ := serializeKey_ok_of_not_nullish _ hnn
      refine ⟨rfl, ?_⟩
      cases himg : imGet s.identMap table (extractPk pkField data) with
      | error err => rw [himg] at h; simp at h
      | ok existing =>
          rw [himg] at h
          cases existing with
          | some ex =>
              dsimp only at h
              cases hst : getStateFn s.tracker ex with
              | none => rw [hst] at h; simp at h
              | some st =>
                  cases st with
                  | unchanged => rw [hst] at h; simp at h
                  | modified => rw [hst] at h; simp at h
                  | added => rw [hst] at h; simp at h
                  | deleted =>
                      rw [hst] at h
                      dsimp only at h
                      unfold allocEntity at h
                      dsimp only at h
                      unfold imRegister at h
                      dsimp only at h
                      rw [hser] at h
                      dsimp only at h
                      simp only [Except.ok.injEq, Prod.mk.injEq] at h
                      obtain ⟨he, hs⟩ := h
                      subst he
                      subst hs
                      dsimp only
                      constructor
                      · exact imGet_after_register s.identMap table _ kstr s.nextId hser
                      · exact getState_after_track_fresh _ s.tracker s.nextId table
                          pkField .added hfresh
          | none =>
              dsimp only at h
              unfold allocEntity at h
              dsimp only at h
              unfold imRegister at h
              dsimp only at h
              rw [hser] at h
              dsimp only at h
              simp only [Except.ok.injEq, Prod.mk.injEq] at h
              obtain ⟨he, hs⟩ := h
              subst he
              subst hs
              dsimp only
              constructor
              · exact imGet_after_register s.identMap table _ kstr s.nextId hser
              · exact getState_after_track_fresh _ s.tracker s.nextId table
                  pkField .added hfresh

/-- C1: for every session and (table, primary key), two entities obtained for
the same identity are the same reference.  Given that the schema knows the
table's key column, that the query engine returns rows carrying the queried
primary key, and that the next entity id is fresh for the tracker, (1) when a
scalar `find` succeeds with entity `e`, an immediately repeated `find` on the
same key returns the very same reference `e` and leaves the session state
untouched — whether the first `find` was served from the identity map or
fetched, wrapped and registered; and (2) when `create` succeeds with proxy
reference `e`, a `find` on the created key (with no intervening save or clear)
returns that same reference `e` and leaves the session state untouched. -/
theorem c1_identity_map_reference_equality (schema : Schema)
    (db : String → JsValue → Option Obj) (s : UowState) (table f : String)
    (pk : JsValue) (pkField : String) (e : Nat) (s₁ : UowState) (data : Obj)
    (hschema : alGet schema table = some pkField)
    (hdb : ∀ row, db table pk = some row → extractPk pkField row = pk)
    (hfresh : alGet s.tracker s.nextId = none) :
    (findOp schema db s table [(f, pk)] = .ok (.one (some e), s₁) →
      findOp schema db s₁ table [(f, pk)] = .ok (.one (some e), s₁)) ∧
    (extractPk pkField data = pk → (∀ xs, pk ≠ .vArr xs) →
      createOp schema s table data = .ok (e, s₁) →
      findOp schema db s₁ table [(f, pk)] = .ok (.one (some e), s₁)) := by
  constructor
  · intro h
    obtain ⟨hnn, harr, hget, hst⟩ :=
      findOp_one_found schema db s table f pk pkField e s₁ hschema hdb hfresh h
    rw [findOp_cache_hit schema db s₁ table f pk e hnn harr hget]
    rw [findFilterLive_single s₁.tracker e hst]
    rfl
  · intro hpkdata harr h
    obtain ⟨hnn, hget, hst⟩ :=
      createOp_ok_char schema s table data pkField e s₁ hschema hfresh h
    rw [hpkdata] at hnn hget
    rw [findOp_cache_hit schema db s₁ table f pk e hnn harr hget]
    rw [findFilterLive_single s₁.tracker e (by simp [hst])]
    rfl

theorem c1_identity_map_reference_equality_witness :
    alGet usersSchema "users" = some "id" ∧
    alGet loadedState.tracker loadedState.nextId = none ∧
    findOp usersSchema (fun _ _ => none) loadedState "users" [("id", JsValue.vNum 1)] =
      Except.ok (FindResult.one (some 0), loadedState) :=
  ⟨rfl, rfl,
    (c1_identity_map_reference_equality usersSchema (fun _ _ => none) loadedState
        "users" "id" (JsValue.vNum 1) "id" 0 loadedState []
        rfl (fun row hrow => by cases hrow) rfl).1 rfl⟩
